import Mathlib

/-!
# Verification of the roguelike simulation engine (`firstrl.py`)

A shallow embedding of the engine of the repository: tiles and the grid,
the entity/component data model (Fighter, AI, Item, Equipment), combat and
derived stats, inventory operations, the message buffer, pathfinding step
selection, the dungeon generator, and save/load of the world state.

Conventions of the embedding:
* Python object identity is modelled by a numeric `id` carried by every
  entity; "the same object" means "the same id".  Mutating an object in
  place is modelled by rewriting every list entry carrying that id
  (`GS.mutateObj`), which is exactly what aliasing through Python lists
  does.
* Machine integers are `Int` (Python ints are unbounded, so no wraparound).
* Fallible code (Python exceptions) returns `Option`/`Except`.
* The libtcod random generator is modelled by an oracle `rng : Nat → Int`
  consumed at an explicit counter; `random_get_int 0 lo hi` becomes
  `randInt rng i lo hi`, which always lands in `[lo, hi]` when `lo ≤ hi`.
-/

/-! ## Constants (from the top of `firstrl.py`) -/

def SCREEN_WIDTH : Nat := 80
def MAP_WIDTH : Int := 100
def MAP_HEIGHT : Int := 100
def BAR_WIDTH : Nat := 20
def PANEL_HEIGHT : Nat := 7
def MSG_WIDTH : Nat := SCREEN_WIDTH - BAR_WIDTH - 2
def MSG_HEIGHT : Nat := PANEL_HEIGHT - 1
def ROOM_MAX_SIZE : Int := 10
def ROOM_MIN_SIZE : Int := 6
def MAX_ROOMS : Nat := 30
def HEAL_AMOUNT : Int := 40
def LIGHTNING_DAMAGE : Int := 40
def LIGHTNING_RANGE : Int := 5
def CONFUSE_NUM_TURNS : Int := 10
def FIREBALL_DAMAGE : Int := 25
def LEVEL_UP_BASE : Int := 200
def LEVEL_UP_FACTOR : Int := 150

/-- libtcod colour constants used by the game; the engine never inspects the
RGB payload, so colours are modelled as an enumeration. -/
inductive Color where
  | white | black | red | green | yellow | orange
  | light_green | light_yellow | light_red | light_violet
  | light_blue | light_cyan | dark_red | sky | desaturated_green
deriving DecidableEq

/-! ## Tiles and the grid -/

/-- A tile of the map and its properties (`class Tile`). -/
structure Tile where
  blocked : Bool
  block_sight : Bool
  explored : Bool
deriving DecidableEq

/-- `Tile.__init__`: by default, if a tile is blocked, it also blocks
sight, and it starts unexplored. -/
def Tile.new (blocked : Bool) : Tile :=
  { blocked := blocked, block_sight := blocked, explored := false }

/-- The mutable 2D tile array `map`, as a function from coordinates.
`map[x][y]` in the source reads the function at `(x, y)`; an in-place
assignment to a tile becomes a functional update (`setTile`). -/
def GameMap : Type := Int → Int → Tile

/-- Write one tile of the grid (models `map[x][y].field = value`, with the
whole updated tile supplied by the caller). -/
def setTile (m : GameMap) (x y : Int) (t : Tile) : GameMap :=
  fun a b => if a = x ∧ b = y then t else m a b

/-- A rectangle on the map, used to characterize a room (`class Rect`). -/
structure Rect where
  x1 : Int
  y1 : Int
  x2 : Int
  y2 : Int
deriving DecidableEq

/-- `Rect.__init__(x, y, w, h)`. -/
def Rect.new (x y w h : Int) : Rect :=
  { x1 := x, y1 := y, x2 := x + w, y2 := y + h }

/-- `Rect.center`; Python 2 `/` on ints is floor division, hence `Int.ediv`
(all centers in this game are nonnegative, where the two agree). -/
def Rect.center (r : Rect) : Int × Int :=
  ((r.x1 + r.x2) / 2, (r.y1 + r.y2) / 2)

/-- `Rect.intersect`: true if this rectangle intersects with another one. -/
def Rect.intersect (r other : Rect) : Bool :=
  r.x1 ≤ other.x2 ∧ r.x2 ≥ other.x1 ∧ r.y1 ≤ other.y2 ∧ r.y2 ≥ other.y1

/-! ## Components -/

/-- The two death callbacks the game installs (`player_death` /
`monster_death`); a `Fighter.death_function` is one of these or `None`. -/
inductive DeathFn where
  | playerDeath
  | monsterDeath
deriving DecidableEq

/-- Combat-related properties (`class Fighter`); `power`, `defence` and
`max_hp` are derived, see `Fighter.power` below. -/
structure Fighter where
  base_max_hp : Int
  hp : Int
  base_defence : Int
  base_power : Int
  xp : Int
  death_function : Option DeathFn := none
deriving DecidableEq

/-- AI components: `BasicMonster`, or `ConfusedMonster` wrapping the
displaced AI together with its remaining-turns countdown. -/
inductive AIComp where
  | basic
  | confused (old_ai : AIComp) (num_turns : Int)
deriving DecidableEq

/-- The closed set of item effects wired up by `place_objects`
(`cast_heal`, `cast_lightning`, `cast_fireball`, `cast_confuse`). -/
inductive UseKind where
  | heal | lightning | fireball | confuse
deriving DecidableEq

/-- `class Item`: `use_function` is one of the closed effect set, or
`None`.  (For `Item.use` the behaviour of the effect is supplied as a
function argument; the stored tag is the persisted datum.) -/
structure ItemComp where
  use_function : Option UseKind := none
deriving DecidableEq

/-- `class Equipment`: an object that can be equipped, yielding bonuses. -/
structure Equipment where
  slot : String
  is_equipped : Bool := false
  power_bonus : Int := 0
  defence_bonus : Int := 0
  max_hp_bonus : Int := 0
deriving DecidableEq

/-- A generic object (`class Object`): the player, a monster, an item, the
stairs...  The `id` models Python object identity.  `level` is the
attribute set on the player after construction (`player.level = 1`). -/
structure Obj where
  id : Nat
  x : Int
  y : Int
  char : Char
  name : String
  color : Color
  blocks : Bool := false
  always_visible : Bool := false
  fighter : Option Fighter := none
  ai : Option AIComp := none
  item : Option ItemComp := none
  equipment : Option Equipment := none
  level : Int := 1
deriving DecidableEq

/-- `Object.__init__`: if an `Equipment` component is given, an `Item`
component is created for the object as well ("there must be an Item
component for the Equipment component to work properly"). -/
def Obj.new (id : Nat) (x y : Int) (char : Char) (name : String)
    (color : Color) (blocks : Bool) (always_visible : Bool)
    (fighter : Option Fighter) (ai : Option AIComp)
    (item : Option ItemComp) (equipment : Option Equipment) :
    Obj :=
  { id := id, x := x, y := y, char := char, name := name, color := color,
    blocks := blocks, always_visible := always_visible, fighter := fighter,
    ai := ai,
    item := if equipment.isSome then some { use_function := none } else item,
    equipment := equipment }

/-! ## The message buffer (`message`, claim C10's subject)

`message` first wraps the text with `textwrap.wrap(new_msg, MSG_WIDTH)` and
then appends each resulting line to `game_msgs`, deleting the oldest line
whenever the buffer already holds `MSG_HEIGHT` lines.  The buffer logic is
defined over an arbitrary list of wrapped lines. -/

/-- Append one wrapped line to the buffer: if the buffer is full, remove
the first line to make room for the new one (the loop body of
`message`). -/
def appendMsgLine (game_msgs : List (String × Color)) (line : String)
    (color : Color) : List (String × Color) :=
  let buf := if game_msgs.length = MSG_HEIGHT then game_msgs.drop 1 else game_msgs
  buf ++ [(line, color)]

/-- The buffer part of `message`: fold the wrapped lines of one message
into the buffer. -/
def messageLines (game_msgs : List (String × Color))
    (new_msg_lines : List String) (color : Color) : List (String × Color) :=
  new_msg_lines.foldl (fun buf line => appendMsgLine buf line color) game_msgs

/-- Greedy word-wrap, the documented behaviour of `textwrap.wrap` on the
simple one-space-separated message strings this game produces (no message
contains a word longer than `MSG_WIDTH`, so the long-word-breaking branch
of `textwrap` is never exercised). -/
def wrapWords (width : Nat) : List String → List String
  | [] => []
  | w :: ws =>
    let step := fun (acc : List String × String) (word : String) =>
      let lines := acc.1
      let cur := acc.2
      if cur.length + 1 + word.length ≤ width then
        (lines, cur ++ " " ++ word)
      else
        (lines ++ [cur], word)
    let r := ws.foldl step ([], w)
    r.1 ++ [r.2]

/-- `textwrap.wrap(new_msg, width)` for the game's messages: split on
spaces and refill greedily to `width` columns. -/
def textwrap (new_msg : String) (width : Nat) : List String :=
  wrapWords width ((new_msg.splitOn " ").filter (fun w => w ≠ ""))

theorem messageLines_nil (game_msgs : List (String × Color)) (c : Color) :
    messageLines game_msgs [] c = game_msgs := rfl

/-! ## The global game state

The source keeps the world in module-level globals (`map`, `objects`,
`player`, `stairs`, `inventory`, `dungeon_level`, `game_msgs`,
`game_state`, `fov_map`, `fov_recompute`).  The embedding gathers them in
one structure; the `player` and `stairs` globals are identity references,
carried as the ids of the referenced entities. -/

structure GS where
  map : GameMap
  objects : List Obj
  player_id : Nat
  stairs_id : Nat
  inventory : List Obj
  dungeon_level : Int
  game_msgs : List (String × Color)
  game_state : String
  fov_map : Int → Int → Bool × Bool
  fov_recompute : Bool

/-- In-place mutation of the Python object with identity `i`: every list
position holding that object sees the update (aliasing). -/
def GS.mutateObj (gs : GS) (i : Nat) (upd : Obj → Obj) : GS :=
  { gs with
    objects := gs.objects.map (fun o => if o.id = i then upd o else o),
    inventory := gs.inventory.map (fun o => if o.id = i then upd o else o) }

/-- Dereference an identity: the first list entry holding the object
(`find?` by id). -/
def lookupId : List Obj → Nat → Option Obj
  | [], _ => none
  | o :: rest, i => if o.id = i then some o else lookupId rest i

/-- Python `list.remove(x)`: delete the first occurrence of the object
(matched by identity). -/
def removeById : List Obj → Nat → List Obj
  | [], _ => []
  | o :: rest, i => if o.id = i then rest else o :: removeById rest i

/-- `message(new_msg, color)`: wrap the text and append the lines to the
bounded buffer. -/
def GS.message (gs : GS) (new_msg : String) (color : Color) :
    GS :=
  { gs with game_msgs := messageLines gs.game_msgs (textwrap new_msg MSG_WIDTH) color }

/-! ## Derived stats (`get_all_equipment`, `Fighter.power` …) -/

/-- `get_all_equipment(obj)`: the equipment of the equipped items in the
player's inventory when `obj` is the player; other objects do not have
equipment. -/
def get_all_equipment (gs : GS) (obj : Obj) : List Equipment :=
  if obj.id = gs.player_id then
    gs.inventory.filterMap (fun it =>
      match it.equipment with
      | some e => if e.is_equipped then some e else none
      | none => none)
  else []

/-- Derived `Fighter.power`: base power plus the summed power bonuses of
all equipped equipment reachable from the owner. -/
def Fighter.power (gs : GS) (owner : Obj) (f : Fighter) : Int :=
  f.base_power + ((get_all_equipment gs owner).map (fun e => e.power_bonus)).sum

/-- Derived `Fighter.defence`. -/
def Fighter.defence (gs : GS) (owner : Obj) (f : Fighter) : Int :=
  f.base_defence + ((get_all_equipment gs owner).map (fun e => e.defence_bonus)).sum

/-- Derived `Fighter.max_hp`. -/
def Fighter.max_hp (gs : GS) (owner : Obj) (f : Fighter) : Int :=
  f.base_max_hp + ((get_all_equipment gs owner).map (fun e => e.max_hp_bonus)).sum

/-! ## Equipment operations -/

/-- `get_equipped_in_slot(slot)`: the inventory object whose equipment
occupies `slot`, or `none` if the slot is empty.  (The source returns the
`Equipment` component; the embedding returns its owning object, which
carries the component and its identity.) -/
def get_equipped_in_slot (gs : GS) (slot : String) : Option Obj :=
  gs.inventory.find? (fun o =>
    match o.equipment with
    | some e => decide (e.slot = slot) && e.is_equipped
    | none => false)

/-- `self.is_equipped = b` on an object's equipment component. -/
def setEquipFlag (b : Bool) (o : Obj) : Obj :=
  { o with equipment := o.equipment.map (fun e => { e with is_equipped := b }) }

/-- `Equipment.dequip`: no-op when not equipped, otherwise clear the flag
and report. -/
def Equipment.dequip (gs : GS) (owner : Obj) : GS :=
  match owner.equipment with
  | some e =>
    if e.is_equipped then
      ((gs.mutateObj owner.id (setEquipFlag false)).message
        ("Dequipped " ++ owner.name ++ " from" ++ e.slot ++ ".")
        Color.light_yellow)
    else gs
  | none => gs

/-- `Equipment.equip`: dequip whatever occupies the slot first, then set
the flag and report. -/
def Equipment.equip (gs : GS) (owner : Obj) (e : Equipment) : GS :=
  let gs1 :=
    match get_equipped_in_slot gs e.slot with
    | some old => Equipment.dequip gs old
    | none => gs
  ((gs1.mutateObj owner.id (setEquipFlag true)).message
    ("Equipped " ++ owner.name ++ " on " ++ e.slot ++ ".") Color.light_green)

/-- `Equipment.toogle_equip` (source spelling): toggle equip/dequip. -/
def Equipment.toogle_equip (gs : GS) (owner : Obj) (e : Equipment) : GS :=
  if e.is_equipped then Equipment.dequip gs owner
  else Equipment.equip gs owner e


/-! ## Death functions and combat -/

/-- `Object.send_to_back`: remove the object from the live collection and
re-insert it at the front so all others draw above it. -/
def Object.send_to_back (gs : GS) (i : Nat) : GS :=
  match lookupId gs.objects i with
  | some o => { gs with objects := o :: removeById gs.objects i }
  | none => gs

/-- `player_death(player)`: end the game and turn the player into a
corpse (the Fighter component, and its hp, are left in place). -/
def player_death (gs : GS) (i : Nat) : GS :=
  ({ gs.message "You died!" Color.red with game_state := "dead" }).mutateObj i
    (fun o => { o with char := '%', color := Color.dark_red })

/-- `monster_death(monster)`: transform the monster into a corpse that
does not block, cannot be attacked and does not move.  (The `none` branch
is unreachable: the caller always holds a live Fighter.) -/
def monster_death (gs : GS) (m : Obj) : GS :=
  match m.fighter with
  | some f =>
    let gs1 := gs.message (m.name.capitalize ++ " is dead! You gain "
        ++ toString f.xp ++ " XP.") Color.orange
    let gs2 := gs1.mutateObj m.id (fun o =>
      { o with
        char := '%'
        color := Color.dark_red
        blocks := false
        fighter := none
        ai := none
        name := "remains of " ++ o.name })
    Object.send_to_back gs2 m.id
  | none => gs

/-- `Fighter.take_damage(damage)`: apply damage if positive; on reaching
hp ≤ 0 fire the death function and, if the owner is not the player, yield
the experience value to the player. -/
def Fighter.take_damage (gs : GS) (owner : Obj) (f : Fighter)
    (damage : Int) : GS :=
  if 0 < damage then
    let f1 : Fighter := { f with hp := f.hp - damage }
    let gs1 := gs.mutateObj owner.id (fun o => { o with fighter := some f1 })
    if f1.hp ≤ 0 then
      let gs2 :=
        match f1.death_function with
        | some DeathFn.playerDeath => player_death gs1 owner.id
        | some DeathFn.monsterDeath =>
            monster_death gs1 { owner with fighter := some f1 }
        | none => gs1
      if owner.id ≠ gs1.player_id then
        gs2.mutateObj gs2.player_id (fun o =>
          { o with
            fighter := o.fighter.map
              (fun pf => { pf with xp := pf.xp + f1.xp }) })
      else gs2
    else gs1
  else gs

/-- `Fighter.attack(target)`: damage is attacker power minus defender
defence; positive damage is applied, otherwise the attack has no
effect. -/
def Fighter.attack (gs : GS) (attacker : Obj) (f : Fighter) (target : Obj)
    (tf : Fighter) : GS :=
  let damage := Fighter.power gs attacker f - Fighter.defence gs target tf
  if 0 < damage then
    Fighter.take_damage
      (gs.message (attacker.name.capitalize ++ " attacks " ++ target.name
        ++ " for " ++ toString damage ++ " HP.") Color.white)
      target tf damage
  else
    gs.message (attacker.name.capitalize ++ " attacks " ++ target.name
      ++ " but it has no effect!") Color.white

/-- `Fighter.heal(amount)`: heal by the given amount, without going over
the (derived) maximum. -/
def Fighter.heal (gs : GS) (owner : Obj) (f : Fighter) (amount : Int) : GS :=
  let hp1 := f.hp + amount
  let hp2 := if hp1 > Fighter.max_hp gs owner f
    then Fighter.max_hp gs owner f else hp1
  gs.mutateObj owner.id (fun o => { o with fighter := some { f with hp := hp2 } })

/-! ## Item operations -/

/-- `Item.pick_up`: a full inventory (26 entries) only reports a message;
otherwise the owner moves from the map collection into the inventory.
The auto-equip special case then runs in both situations: in the source it
sits outside the `else` branch. -/
def Item.pick_up (gs : GS) (owner : Obj) : GS :=
  let gs1 :=
    if gs.inventory.length ≥ 26 then
      gs.message ("Your inventory is full! Cannot pick up "
        ++ owner.name ++ ".") Color.red
    else
      (({ gs with
          inventory := gs.inventory ++ [owner]
          objects := removeById gs.objects owner.id }).message
        ("You picked up a " ++ owner.name ++ "!") Color.green)
  match owner.equipment with
  | some equipment =>
    if (get_equipped_in_slot gs1 equipment.slot).isNone then
      Equipment.equip gs1 owner equipment
    else gs1
  | none => gs1

/-- `Item.use`: equipment toggles; otherwise run the use function and
consume the item from the inventory unless the effect reported
"cancelled".  The behaviour of the stored effect is supplied as a function
from game state to new state plus optional result string. -/
def Item.use (gs : GS) (owner : Obj)
    (use_function : Option (GS → GS × Option String)) : GS :=
  match owner.equipment with
  | some e => Equipment.toogle_equip gs owner e
  | none =>
    match use_function with
    | none => gs.message ("The " ++ owner.name ++ " cannot be used!") Color.white
    | some f =>
      let r := f gs
      if r.2 ≠ some "cancelled" then
        { r.1 with inventory := removeById r.1.inventory owner.id }
      else r.1

/-- `Item.drop`: move the item back to the map at the player's
coordinates and de-equip it if applicable. -/
def Item.drop (gs : GS) (owner : Obj) : GS :=
  let gs1 :=
    match lookupId gs.objects gs.player_id with
    | some p =>
      ({ gs with
        objects := gs.objects ++ [owner]
        inventory := removeById gs.inventory owner.id }).mutateObj owner.id
        (fun o => { o with x := p.x, y := p.y })
    | none => gs
  let gs2 := gs1.message ("You droppend a " ++ owner.name ++ ".") Color.yellow
  match owner.equipment with
  | some _ => Equipment.dequip gs2 owner
  | none => gs2

/-- `cast_heal`: heal the player, unless already at full health, in which
case the effect is cancelled.  (The `none` branches are unreachable: the
player always exists and has a Fighter.) -/
def cast_heal (gs : GS) : GS × Option String :=
  match lookupId gs.objects gs.player_id with
  | some p =>
    match p.fighter with
    | some f =>
      if f.hp = Fighter.max_hp gs p f then
        (gs.message "You are already at full health!" Color.light_red,
          some "cancelled")
      else
        (Fighter.heal
          (gs.message "Your wounds start to feel better!" Color.light_violet)
          p f HEAL_AMOUNT, none)
    | none => (gs, none)
  | none => (gs, none)

/-! ## Movement and pathfinding -/

/-- `isBlocked(x, y)` over explicit map and objects: a blocked tile, or
any blocking object standing there. -/
def isBlockedAt (m : GameMap) (objects : List Obj) (x y : Int) : Bool :=
  if (m x y).blocked then true
  else objects.any (fun o => o.blocks && o.x == x && o.y == y)

/-- `isBlocked(x, y)` against the world state. -/
def isBlocked (gs : GS) (x y : Int) : Bool :=
  isBlockedAt gs.map gs.objects x y

/-- `Object.move(dx, dy)`: move by the given amount unless the
destination is blocked — a silent no-op otherwise. -/
def Object.move (gs : GS) (self : Obj) (dx dy : Int) : GS :=
  if isBlocked gs (self.x + dx) (self.y + dy) then gs
  else gs.mutateObj self.id (fun o => { o with x := o.x + dx, y := o.y + dy })

/-- The integer value of `int(round(d / math.sqrt(s)))` for integers `d`,
`s` with `d ^ 2 ≤ s` and `0 < s` — the rounding of one axis of the
normalized direction vector in `move_towards`.  The quotient lies in
`[-1, 1]`, and Python rounding (half away from zero) sends it to `±1`
exactly when `4 * d ^ 2 ≥ s`.  The equivalence with the real-number
formula is `roundUnit_eq_round_div_sqrt` below. -/
def roundUnit (d s : Int) : Int :=
  if s ≤ 4 * d ^ 2 then (if 0 < d then 1 else if d < 0 then -1 else 0) else 0

/-- `Object.move_towards(target_x, target_y)`: normalize the vector to
the target to length 1 (preserving direction), round each axis, and
attempt that one-step move.  Returns `none` when the mover stands on the
target (`ZeroDivisionError` in the source). -/
def Object.move_towards (gs : GS) (self : Obj) (target_x target_y : Int) :
    Option GS :=
  let dx := target_x - self.x
  let dy := target_y - self.y
  let s := dx ^ 2 + dy ^ 2
  if s = 0 then none
  else some (Object.move gs self (roundUnit dx s) (roundUnit dy s))

/-- Walkability of a cell of the throwaway libtcod map that `move_astar`
builds for the A* search: grid walls are unwalkable, and every blocking
object other than the mover and the target is marked unwalkable on top. -/
def astarWalkable (gs : GS) (self target : Obj) (x y : Int) : Bool :=
  !(gs.map x y).blocked &&
    !(gs.objects.any (fun o =>
      o.blocks && !(o.id == self.id) && !(o.id == target.id)
        && o.x == x && o.y == y))

/-- `Object.move_astar(target)`.  The A* search itself lives in libtcod,
outside the repository, so the computed path is a parameter: the cells
after the mover's own cell, in order (`path_walk` pops the head).  If a
path was found and it is shorter than 25 tiles, jump straight to its
first cell — unless that cell is `(0, 0)`, which the `if x or y`
truthiness test drops; otherwise fall back to `move_towards`.  The grid
inside the state is never written. -/
def Object.move_astar (gs : GS) (self target : Obj)
    (path : List (Int × Int)) : Option GS :=
  if ¬path.isEmpty ∧ path.length < 25 then
    let next := path.headD (0, 0)
    if ¬(next.1 = 0 ∧ next.2 = 0) then
      some (gs.mutateObj self.id (fun o => { o with x := next.1, y := next.2 }))
    else some gs
  else
    Object.move_towards gs self target.x target.y

/-! ## Persistence (`save_game` / `load_game`) -/

/-- The shelve file written by `save_game`: exactly the eight persisted
keys. -/
structure SaveFile where
  map : GameMap
  objects : List Obj
  player_index : Nat
  stairs_index : Nat
  inventory : List Obj
  dungeon_level : Int
  game_msgs : List (String × Color)
  game_state : String

/-- The fov-map part of `initialize_fov`: per cell, libtcod is told
`(not block_sight, not blocked)` (transparent, walkable), derived from
the grid alone. -/
def initialize_fov_map (m : GameMap) : Int → Int → Bool × Bool :=
  fun x y => (!(m x y).block_sight, !(m x y).blocked)

/-- `save_game()`: store the map, the objects in order, the positional
indices of the player and the stairs within the collection
(`objects.index(...)`), the inventory, the depth, the message log and the
game-state string.  A dangling reference would raise `ValueError`, hence
`Option`. -/
def save_game (gs : GS) : Option SaveFile :=
  match gs.objects.findIdx? (fun o => o.id == gs.player_id),
      gs.objects.findIdx? (fun o => o.id == gs.stairs_id) with
  | some pi, some si =>
    some { map := gs.map
           objects := gs.objects
           player_index := pi
           stairs_index := si
           inventory := gs.inventory
           dungeon_level := gs.dungeon_level
           game_msgs := gs.game_msgs
           game_state := gs.game_state }
  | _, _ => none

/-- `load_game()`: restore every saved field, re-resolve the player and
stairs references from their stored indices, then `initialize_fov()`:
rebuild the fov working state from the loaded grid and mark visibility
dirty (`fov_recompute = True`).  An out-of-range index would raise
`IndexError`, hence `Option`. -/
def load_game (sf : SaveFile) : Option GS :=
  match sf.objects.get? sf.player_index, sf.objects.get? sf.stairs_index with
  | some p, some st =>
    some { map := sf.map
           objects := sf.objects
           player_id := p.id
           stairs_id := st.id
           inventory := sf.inventory
           dungeon_level := sf.dungeon_level
           game_msgs := sf.game_msgs
           game_state := sf.game_state
           fov_map := initialize_fov_map sf.map
           fov_recompute := true }
  | _, _ => none

/-! ## Dungeon generation -/

/-- `libtcod.random_get_int(0, lo, hi)` drawn from the oracle at counter
`i`: the modelled value is `lo + rng i mod (hi - lo + 1)`, which lands in
`[lo, hi]` whenever `lo ≤ hi`. -/
def randInt (rng : Nat → Int) (i : Nat) (lo hi : Int) : Int :=
  lo + (rng i) % (hi - lo + 1)

/-- Python `range(lo, hi)` as a list of integers. -/
def intRange (lo hi : Int) : List Int :=
  (List.range (hi - lo).toNat).map (fun i => lo + (i : Int))

/-- `create_room(room)`: make the interior tiles passable. -/
def create_room (m : GameMap) (room : Rect) : GameMap :=
  (intRange (room.x1 + 1) room.x2).foldl (fun m1 x =>
    (intRange (room.y1 + 1) room.y2).foldl (fun m2 y =>
      setTile m2 x y { m2 x y with blocked := false, block_sight := false }) m1) m

/-- `create_h_tunnel(x1, x2, y)`. -/
def create_h_tunnel (m : GameMap) (x1 x2 y : Int) : GameMap :=
  (intRange (min x1 x2) (max x1 x2 + 1)).foldl (fun m1 x =>
    setTile m1 x y { m1 x y with blocked := false, block_sight := false }) m

/-- `create_v_tunnel(y1, y2, x)`. -/
def create_v_tunnel (m : GameMap) (y1 y2 x : Int) : GameMap :=
  (intRange (min y1 y2) (max y1 y2 + 1)).foldl (fun m1 y =>
    setTile m1 x y { m1 x y with blocked := false, block_sight := false }) m

/-- `from_dungeon_level(table)`: the value whose depth threshold is the
largest one not exceeding the current depth, else 0. -/
def from_dungeon_level (dungeon_level : Int) (table : List (Int × Int)) : Int :=
  match table.reverse.find? (fun vl => decide (dungeon_level ≥ vl.2)) with
  | some vl => vl.1
  | none => 0

/-- The monster weight table of `place_objects` (Python 2 dict in
insertion order). -/
def monster_chances (d : Int) : List (String × Int) :=
  [("orc", 80), ("troll", from_dungeon_level d [(15, 3), (30, 5), (60, 7)])]

/-- The item weight table of `place_objects`. -/
def item_chances (d : Int) : List (String × Int) :=
  [("heal", 35), ("lightning", from_dungeon_level d [(25, 4)]),
   ("fireball", from_dungeon_level d [(25, 6)]),
   ("confuse", from_dungeon_level d [(10, 2)]),
   ("sword", from_dungeon_level d [(5, 4)]),
   ("shield", from_dungeon_level d [(15, 8)])]

/-- The loop of `random_choice_index`: running cumulative weight, first
category whose cumulative weight reaches the dice. -/
def random_choice_index_go : List Int → Int → Int → Nat → Option Nat
  | [], _, _, _ => none
  | w :: ws, dice, running_sum, choice =>
    let rs := running_sum + w
    if dice ≤ rs then some choice
    else random_choice_index_go ws dice rs (choice + 1)

/-- `random_choice_index(chances)` applied to an already-drawn dice value
(the caller consumes one rng draw for it); `none` models Python falling
off the loop and returning `None`. -/
def random_choice_index (chances : List Int) (dice : Int) : Option Nat :=
  random_choice_index_go chances dice 0 0

/-- `random_choice(chances_dict)`: look the chosen index up among the
keys; `none` models the `TypeError` of indexing with `None`. -/
def random_choice (chances : List (String × Int)) (dice : Int) :
    Option String :=
  match random_choice_index (chances.map (fun kv => kv.2)) dice with
  | some i => (chances.get? i).map (fun kv => kv.1)
  | none => none

/-- The generator's threaded state: rng counter, grid, live objects,
fresh-identity supply, and the room bookkeeping of `make_map`. -/
structure GenState where
  i : Nat
  m : GameMap
  objects : List Obj
  next_id : Nat
  rooms : List Rect
  num_rooms : Nat
  last_center : Option (Int × Int)

/-- `object.send_to_back()` on a plain list: remove the first occurrence
and re-insert at the front. -/
def send_to_back_list (objects : List Obj) (o : Obj) : List Obj :=
  o :: removeById objects o.id

/-- The orc's Fighter (`hp=20, defence=0, power=4, xp=35`). -/
def orcFighter : Fighter :=
  { base_max_hp := 20, hp := 20, base_defence := 0, base_power := 4,
    xp := 35, death_function := some DeathFn.monsterDeath }

/-- The troll's Fighter (`hp=30, defence=2, power=8, xp=100`). -/
def trollFighter : Fighter :=
  { base_max_hp := 30, hp := 30, base_defence := 2, base_power := 8,
    xp := 100, death_function := some DeathFn.monsterDeath }

/-- One iteration of the monster loop of `place_objects`: draw a spot,
skip if blocked, otherwise draw a kind and append the monster. -/
def place_monster (rng : Nat → Int) (d : Int) (room : Rect)
    (st : GenState) : Except String GenState :=
  let x := randInt rng st.i (room.x1 + 1) (room.x2 - 1)
  let y := randInt rng (st.i + 1) (room.y1 + 1) (room.y2 - 1)
  let st1 : GenState := { st with i := st.i + 2 }
  if isBlockedAt st1.m st1.objects x y then Except.ok st1
  else
    let chances := monster_chances d
    let dice := randInt rng st1.i 1 (chances.map (fun kv => kv.2)).sum
    let st2 : GenState := { st1 with i := st1.i + 1 }
    match random_choice chances dice with
    | some choice =>
      if choice = "orc" then
        let monster := Obj.new st2.next_id x y 'o' "orc"
          Color.desaturated_green true false (some orcFighter)
          (some AIComp.basic) none none
        Except.ok { st2 with objects := st2.objects ++ [monster]
                             next_id := st2.next_id + 1 }
      else if choice = "troll" then
        let monster := Obj.new st2.next_id x y 'T' "troll"
          Color.black true false (some trollFighter)
          (some AIComp.basic) none none
        Except.ok { st2 with objects := st2.objects ++ [monster]
                             next_id := st2.next_id + 1 }
      else
        Except.error "UnboundLocalError: local variable monster referenced before assignment"
    | none => Except.error "TypeError: list indices must be integers, not NoneType"

/-- One iteration of the item loop of `place_objects`.  The second
component of the state is the Python local `item` as left by the previous
iteration: the shield branch of the source never assigns it, so that
branch appends the previous item again — or raises `UnboundLocalError`
on the first iteration.  All other kinds construct and append a fresh
entity and send it to the back of the draw order. -/
def place_item (rng : Nat → Int) (d : Int) (room : Rect)
    (st0 : GenState × Option Obj) : Except String (GenState × Option Obj) :=
  let st := st0.1
  let prev := st0.2
  let x := randInt rng st.i (room.x1 + 1) (room.x2 - 1)
  let y := randInt rng (st.i + 1) (room.y1 + 1) (room.y2 - 1)
  let st1 : GenState := { st with i := st.i + 2 }
  if isBlockedAt st1.m st1.objects x y then Except.ok (st1, prev)
  else
    let chances := item_chances d
    let dice := randInt rng st1.i 1 (chances.map (fun kv => kv.2)).sum
    let st2 : GenState := { st1 with i := st1.i + 1 }
    match random_choice chances dice with
    | some choice =>
      if choice = "heal" then
        let item := Obj.new st2.next_id x y '!' "healing potion" Color.red
          false false none none (some { use_function := some UseKind.heal }) none
        Except.ok ({ st2 with
          objects := send_to_back_list (st2.objects ++ [item]) item
          next_id := st2.next_id + 1 }, some item)
      else if choice = "lightning" then
        let item := Obj.new st2.next_id x y '#' "lightning scroll"
          Color.light_yellow false false none none
          (some { use_function := some UseKind.lightning }) none
        Except.ok ({ st2 with
          objects := send_to_back_list (st2.objects ++ [item]) item
          next_id := st2.next_id + 1 }, some item)
      else if choice = "fireball" then
        let item := Obj.new st2.next_id x y '#' "fireball scroll"
          Color.light_yellow false false none none
          (some { use_function := some UseKind.fireball }) none
        Except.ok ({ st2 with
          objects := send_to_back_list (st2.objects ++ [item]) item
          next_id := st2.next_id + 1 }, some item)
      else if choice = "confuse" then
        let item := Obj.new st2.next_id x y '#' "confuse scroll"
          Color.light_yellow false false none none
          (some { use_function := some UseKind.confuse }) none
        Except.ok ({ st2 with
          objects := send_to_back_list (st2.objects ++ [item]) item
          next_id := st2.next_id + 1 }, some item)
      else if choice = "sword" then
        let item := Obj.new st2.next_id x y '/' "sword" Color.sky
          false false none none none
          (some { slot := "right hand", power_bonus := 3 })
        Except.ok ({ st2 with
          objects := send_to_back_list (st2.objects ++ [item]) item
          next_id := st2.next_id + 1 }, some item)
      else if choice = "shield" then
        let equipment_component : Equipment := { slot := "left hand", defence_bonus := 1 }
        let _ := equipment_component
        match prev with
        | some prevItem =>
          Except.ok ({ st2 with
            objects := send_to_back_list (st2.objects ++ [prevItem]) prevItem }, some prevItem)
        | none =>
          Except.error "UnboundLocalError: local variable item referenced before assignment"
      else
        Except.error "UnboundLocalError: local variable item referenced before assignment"
    | none => Except.error "TypeError: list indices must be integers, not NoneType"

/-- `place_objects(room)`: a depth-scaled number of monsters, then a
depth-scaled number of items. -/
def place_objects (rng : Nat → Int) (d : Int) (room : Rect)
    (st : GenState) : Except String GenState :=
  let max_monsters := from_dungeon_level d [(2, 1), (3, 4), (5, 6)]
  let num_monsters := randInt rng st.i 0 max_monsters
  let st1 : GenState := { st with i := st.i + 1 }
  match (List.range num_monsters.toNat).foldlM
      (fun s _ => place_monster rng d room s) st1 with
  | Except.ok st2 =>
    let max_item := from_dungeon_level d [(1, 1), (2, 4)]
    let num_items := randInt rng st2.i 0 max_item
    let st3 : GenState := { st2 with i := st2.i + 1 }
    match (List.range num_items.toNat).foldlM
        (fun s _ => place_item rng d room s) (st3, (none : Option Obj)) with
    | Except.ok r => Except.ok r.1
    | Except.error e => Except.error e
  | Except.error e => Except.error e

/-- One iteration of the room loop of `make_map`: sample a rectangle,
reject on intersection, otherwise carve it, place the player (first room)
or a connecting tunnel (later rooms), and populate it. -/
def make_map_room (rng : Nat → Int) (d : Int) (player_id : Nat)
    (st : GenState) : Except String GenState :=
  let w := randInt rng st.i ROOM_MIN_SIZE ROOM_MAX_SIZE
  let h := randInt rng (st.i + 1) ROOM_MIN_SIZE ROOM_MAX_SIZE
  let x := randInt rng (st.i + 2) 0 (MAP_WIDTH - w - 1)
  let y := randInt rng (st.i + 3) 0 (MAP_HEIGHT - h - 1)
  let st0 : GenState := { st with i := st.i + 4 }
  let new_room := Rect.new x y w h
  let failed := st0.rooms.any (fun r => new_room.intersect r)
  if failed then Except.ok st0
  else
    let m1 := create_room st0.m new_room
    let c := new_room.center
    let stA : Except String GenState :=
      if st0.num_rooms = 0 then
        Except.ok { st0 with
          m := m1
          objects := st0.objects.map (fun o =>
            if o.id = player_id then { o with x := c.1, y := c.2 } else o) }
      else
        match st0.rooms.get? (st0.num_rooms - 1) with
        | some prevRoom =>
          let pc := prevRoom.center
          let coin := randInt rng st0.i 0 1
          let m2 :=
            if coin = 1 then
              create_v_tunnel (create_h_tunnel m1 pc.1 c.1 pc.2) pc.2 c.2 c.1
            else
              create_h_tunnel (create_v_tunnel m1 pc.2 c.2 pc.1) pc.1 c.1 c.2
          Except.ok { st0 with m := m2, i := st0.i + 1 }
        | none => Except.error "IndexError: list index out of range"
    match stA with
    | Except.ok stB =>
      match place_objects rng d new_room stB with
      | Except.ok stC =>
        Except.ok { stC with rooms := stC.rooms ++ [new_room]
                             num_rooms := stC.num_rooms + 1
                             last_center := some c }
      | Except.error e => Except.error e
    | Except.error e => Except.error e

/-- The outputs of `make_map`: the new grid, the new live collection, the
identity of the stairs, and bookkeeping. -/
structure MapOut where
  m : GameMap
  objects : List Obj
  stairs_id : Nat
  num_rooms : Nat
  next_id : Nat

/-- `make_map()`: start from an all-blocked grid holding only the player,
attempt `MAX_ROOMS` room placements, then put the stairs at the center of
the last accepted room.  If no room was ever accepted the final step
reads the unassigned `new_x` (`UnboundLocalError`). -/
def make_map (rng : Nat → Int) (d : Int) (player : Obj) (next_id : Nat) :
    Except String MapOut :=
  let init : GenState := { i := 0
                           m := fun _ _ => Tile.new true
                           objects := [player]
                           next_id := next_id
                           rooms := []
                           num_rooms := 0
                           last_center := none }
  match (List.range MAX_ROOMS).foldlM
      (fun s _ => make_map_room rng d player.id s) init with
  | Except.ok st =>
    match st.last_center with
    | some c =>
      let stairs := Obj.new st.next_id c.1 c.2 '<' "stairs" Color.white
        false true none none none none
      Except.ok { m := st.m
                  objects := send_to_back_list (st.objects ++ [stairs]) stairs
                  stairs_id := stairs.id
                  num_rooms := st.num_rooms
                  next_id := st.next_id + 1 }
    | none =>
      Except.error "UnboundLocalError: local variable new_x referenced before assignment"
  | Except.error e => Except.error e

/-! ## Level-ups and level transitions -/

/-- `check_up_level()` with the menu choice supplied by the caller (the
source blocks in a menu loop until one of the three options is picked). -/
def check_up_level (gs : GS) (choice : Fin 3) : GS :=
  match lookupId gs.objects gs.player_id with
  | some p =>
    match p.fighter with
    | some f =>
      let level_up_xp := LEVEL_UP_BASE + p.level * LEVEL_UP_FACTOR
      if level_up_xp ≤ f.xp then
        let gs1 := (gs.mutateObj p.id (fun o =>
          { o with
            level := o.level + 1
            fighter := some { f with xp := f.xp - level_up_xp } })).message
          ("Your battle skills grow stronger! You reached level "
            ++ toString (p.level + 1) ++ "!") Color.yellow
        if choice.val = 0 then
          gs1.mutateObj p.id (fun o =>
            { o with fighter := o.fighter.map (fun g =>
                { g with base_max_hp := g.base_max_hp + 20, hp := g.hp + 20 }) })
        else if choice.val = 1 then
          gs1.mutateObj p.id (fun o =>
            { o with fighter := o.fighter.map (fun g =>
                { g with base_power := g.base_power + 1 }) })
        else
          gs1.mutateObj p.id (fun o =>
            { o with fighter := o.fighter.map (fun g =>
                { g with base_defence := g.base_defence + 1 }) })
      else gs
    | none => gs
  | none => gs

/-- `next_level()`: heal half the maximum hp, raise the depth counter,
regenerate the map and rebuild the fov state.  (Python 2 `/` floors,
hence `Int.ediv`.) -/
def next_level (gs : GS) (rng : Nat → Int) (next_id : Nat) :
    Except String GS :=
  match lookupId gs.objects gs.player_id with
  | some p =>
    match p.fighter with
    | some f =>
      let gs1 := gs.message
        "You take a moment to rest, and recover your strength."
        Color.light_violet
      let gs2 := Fighter.heal gs1 p f (Int.ediv (Fighter.max_hp gs1 p f) 2)
      let gs3 := gs2.message
        "After a rare moment of peace, you descend deeper into the heart of the dungeon..."
        Color.red
      let gs4 : GS := { gs3 with dungeon_level := gs3.dungeon_level + 1 }
      match lookupId gs4.objects gs4.player_id with
      | some p1 =>
        match make_map rng gs4.dungeon_level p1 next_id with
        | Except.ok out =>
          Except.ok { gs4 with map := out.m
                               objects := out.objects
                               stairs_id := out.stairs_id
                               fov_map := initialize_fov_map out.m
                               fov_recompute := true }
        | Except.error e => Except.error e
      | none => Except.error "AttributeError: player missing"
    | none => Except.error "AttributeError: player has no Fighter"
  | none => Except.error "AttributeError: player missing"

/-! ## The engine step relation and the hp invariant (claim C9) -/

/-- The hp bounds of one object's Fighter, if it has one. -/
def fighterHpOk (gs : GS) (o : Obj) : Bool :=
  match o.fighter with
  | some f => decide (0 ≤ f.hp ∧ f.hp ≤ Fighter.max_hp gs o f)
  | none => true

/-- The invariant exactly as the claim states it: every Fighter-bearing
entity in the live collection satisfies `0 ≤ hp ≤ max_hp`. -/
def HpInvariant (gs : GS) : Prop :=
  ∀ o ∈ gs.objects, fighterHpOk gs o = true

/-- The amended invariant: the bounds hold for every Fighter-bearing
entity except the player once its death transition has fired (the player
keeps its Fighter, with hp ≤ 0, and the game state is then `dead`). -/
def HpInvariantAlive (gs : GS) : Prop :=
  ∀ o ∈ gs.objects,
    (o.id = gs.player_id → gs.game_state = "playing") →
    fighterHpOk gs o = true

/-- The death callbacks as the game wires them: the player's Fighter dies
through `player_death`, every other Fighter through `monster_death`. -/
def deathFnWired (gs : GS) (o : Obj) : Bool :=
  match o.fighter with
  | some f =>
    decide (f.death_function =
      (if o.id = gs.player_id then some DeathFn.playerDeath
       else some DeathFn.monsterDeath))
  | none => true

/-- Well-formedness of a quiescent world: death functions wired as the
game creates them, and the (amended) hp bounds. -/
def EngineWF (gs : GS) : Prop :=
  (∀ o ∈ gs.objects, deathFnWired gs o = true) ∧ HpInvariantAlive gs

/-- The quiescent-point-to-quiescent-point operations of the claim:
attacks, heals (potion), level-ups, and level transitions. -/
inductive Step : GS → GS → Prop where
  | attack (gs : GS) (attacker target : Obj) (af tf : Fighter)
      (hstate : gs.game_state = "playing")
      (hatt : attacker ∈ gs.objects) (haf : attacker.fighter = some af)
      (htar : target ∈ gs.objects) (htf : target.fighter = some tf) :
      Step gs (Fighter.attack gs attacker af target tf)
  | useHeal (gs : GS) (hstate : gs.game_state = "playing") :
      Step gs (cast_heal gs).1
  | levelUp (gs : GS) (choice : Fin 3) :
      Step gs (check_up_level gs choice)
  | descend (gs gs1 : GS) (rng : Nat → Int) (next_id : Nat)
      (hstate : gs.game_state = "playing")
      (hfresh : ∀ o ∈ gs.objects, o.id < next_id)
      (h : next_level gs rng next_id = Except.ok gs1) :
      Step gs gs1

/-- Objects the placement step may freshly append: identities drawn from
the fresh-id supply, carrying either no Fighter (items, stairs) or a
full-health monster Fighter wired to `monster_death`. -/
def FreshSpawn (n : Nat) (o : Obj) : Prop :=
  n ≤ o.id ∧
    (o.fighter = none ∨ o.fighter = some orcFighter ∨
      o.fighter = some trollFighter)

/-- The bookkeeping invariant of the room loop: the accepted-room counter
matches the room list, and once a room was accepted the last-center cell
is recorded. -/
def RoomInv (s : GenState) : Prop :=
  s.num_rooms = s.rooms.length ∧ (1 ≤ s.num_rooms → s.last_center.isSome)

/-! ## Concrete example worlds -/

/-- An all-walls grid. -/
def wallMap : GameMap := fun _ _ => Tile.new true

/-- A fov map with nothing computed yet. -/
def blankFov : Int → Int → Bool × Bool := fun _ _ => (false, false)

/-- An unequipped shield lying on the map (claim C1). -/
def shieldC1 : Obj :=
  { id := 50, x := 2, y := 3, char := '/', name := "shield"
    color := Color.sky, item := some { use_function := none }
    equipment := some { slot := "left hand", defence_bonus := 1 } }

/-- One of the 26 potions filling the inventory (claim C1). -/
def potionC1 (n : Nat) : Obj :=
  { id := 100 + n, x := 0, y := 0, char := '!', name := "healing potion"
    color := Color.red, item := some { use_function := some UseKind.heal } }

/-- A world whose inventory is exactly full (claim C1). -/
def gsC1 : GS :=
  { map := wallMap, objects := [shieldC1], player_id := 1, stairs_id := 2
    inventory := (List.range 26).map potionC1, dungeon_level := 1
    game_msgs := [], game_state := "playing", fov_map := blankFov
    fov_recompute := false }

/-- Attacker Fighter with power 5 (claim C2). -/
def afC2 : Fighter :=
  { base_max_hp := 20, hp := 20, base_defence := 0, base_power := 5
    xp := 35, death_function := some DeathFn.monsterDeath }

/-- Defender Fighter with defence 2 and 30 hp (claim C2). -/
def tfC2 : Fighter :=
  { base_max_hp := 30, hp := 30, base_defence := 2, base_power := 8
    xp := 100, death_function := some DeathFn.monsterDeath }

/-- The attacking monster (claim C2). -/
def atkC2 : Obj :=
  { id := 3, x := 0, y := 0, char := 'o', name := "orc"
    color := Color.desaturated_green, blocks := true, fighter := some afC2 }

/-- The defending monster (claim C2). -/
def defC2 : Obj :=
  { id := 4, x := 1, y := 0, char := 'T', name := "troll"
    color := Color.black, blocks := true, fighter := some tfC2 }

/-- A world holding the two combatants (claim C2). -/
def gsC2 : GS :=
  { map := wallMap, objects := [atkC2, defC2], player_id := 1, stairs_id := 2
    inventory := [], dungeon_level := 1, game_msgs := []
    game_state := "playing", fov_map := blankFov, fov_recompute := false }

/-- The player Fighter of the derived-stat example (claim C4): base power
4. -/
def fighterC4 : Fighter :=
  { base_max_hp := 100, hp := 100, base_defence := 1, base_power := 4
    xp := 0, death_function := some DeathFn.playerDeath }

/-- The player of the derived-stat example (claim C4). -/
def playerC4 : Obj :=
  { id := 1, x := 0, y := 0, char := '@', name := "player"
    color := Color.white, blocks := true, fighter := some fighterC4 }

/-- An equipped sword granting +3 power (claim C4). -/
def swordC4 : Obj :=
  { id := 10, x := 0, y := 0, char := '/', name := "sword", color := Color.sky
    item := some { use_function := none }
    equipment := some { slot := "right hand", is_equipped := true, power_bonus := 3 } }

/-- An equipped dagger granting +1 power (claim C4). -/
def daggerC4 : Obj :=
  { id := 11, x := 0, y := 0, char := '-', name := "dagger", color := Color.sky
    item := some { use_function := none }
    equipment := some { slot := "left hand", is_equipped := true, power_bonus := 1 } }

/-- A world where the player has both weapons equipped (claim C4). -/
def gsC4 : GS :=
  { map := wallMap, objects := [playerC4], player_id := 1, stairs_id := 2
    inventory := [swordC4, daggerC4], dungeon_level := 1, game_msgs := []
    game_state := "playing", fov_map := blankFov, fov_recompute := false }

/-- The player of the save/load example (claim C3). -/
def playerC3 : Obj :=
  { id := 1, x := 7, y := 9, char := '@', name := "player"
    color := Color.white, blocks := true, fighter := some fighterC4
    level := 2 }

/-- A mid-confusion monster with 3 turns remaining (claim C3). -/
def monsterC3 : Obj :=
  { id := 5, x := 8, y := 9, char := 'o', name := "orc"
    color := Color.desaturated_green, blocks := true
    fighter := some orcFighter
    ai := some (AIComp.confused AIComp.basic 3) }

/-- The stairs marker (claim C3). -/
def stairsC3 : Obj :=
  { id := 2, x := 20, y := 21, char := '<', name := "stairs"
    color := Color.white, always_visible := true }

/-- A world exercising every persisted field (claim C3). -/
def gsC3 : GS :=
  { map := wallMap, objects := [playerC3, monsterC3, stairsC3]
    player_id := 1, stairs_id := 2
    inventory := [daggerC4], dungeon_level := 4
    game_msgs := [("Welcome stranger!", Color.red)]
    game_state := "playing", fov_map := blankFov, fov_recompute := false }

/-- A grid with a three-tile corridor at y = 1 (claim C5). -/
def mapC5 : GameMap := fun x y =>
  if (x = 1 ∨ x = 2 ∨ x = 3) ∧ y = 1 then
    { blocked := false, block_sight := false, explored := false }
  else Tile.new true

/-- The moving monster (claim C5). -/
def selfC5 : Obj :=
  { id := 3, x := 1, y := 1, char := 'o', name := "orc"
    color := Color.desaturated_green, blocks := true, fighter := some afC2 }

/-- The pursued target (claim C5). -/
def targetC5 : Obj :=
  { id := 4, x := 3, y := 1, char := '@', name := "player"
    color := Color.white, blocks := true, fighter := some fighterC4 }

/-- A world with the corridor and the two actors (claim C5). -/
def gsC5 : GS :=
  { map := mapC5, objects := [selfC5, targetC5], player_id := 4, stairs_id := 2
    inventory := [], dungeon_level := 1, game_msgs := []
    game_state := "playing", fov_map := blankFov, fov_recompute := false }

/-- The full-health player (claim C6). -/
def playerC6 : Obj :=
  { id := 1, x := 0, y := 0, char := '@', name := "player"
    color := Color.white, blocks := true, fighter := some fighterC4 }

/-- A healing potion held in the inventory (claim C6). -/
def potC6 : Obj :=
  { id := 7, x := 0, y := 0, char := '!', name := "healing potion"
    color := Color.red, item := some { use_function := some UseKind.heal } }

/-- A world where the player is at full health holding one potion
(claim C6). -/
def gsC6 : GS :=
  { map := wallMap, objects := [playerC6], player_id := 1, stairs_id := 2
    inventory := [potC6], dungeon_level := 1, game_msgs := []
    game_state := "playing", fov_map := blankFov, fov_recompute := false }

/-- The player entity fed to the generator examples (claims C7/C8/C9). -/
def playerC7 : Obj :=
  { id := 0, x := 0, y := 0, char := '@', name := "player"
    color := Color.white, blocks := true, fighter := some fighterC4 }

/-- A random oracle that makes `make_map` accept one 6×6 room at the
origin, place no monster and one item, and land the item dice on the
shield row of the depth-8 table (claim C7). -/
def rngC7 : Nat → Int := fun i =>
  ([0, 0, 0, 0, 0, 1, 0, 0, 100] : List Int).getD i 0

/-- The same draws with the four room draws stripped, for calling
`place_objects` directly (claim C8). -/
def rngC8 : Nat → Int := fun i =>
  ([0, 1, 0, 0, 100] : List Int).getD i 0

/-- The 6×6 room used by the direct `place_objects` run (claim C8). -/
def roomC8 : Rect := Rect.new 0 0 6 6

/-- Generator state after carving `roomC8`, the player standing at its
center (claim C8). -/
def stC8 : GenState :=
  { i := 0, m := create_room wallMap roomC8
    objects := [{ playerC7 with x := 3, y := 3 }], next_id := 1
    rooms := [roomC8], num_rooms := 1, last_center := some (3, 3) }

/-- The player's Fighter for the C9 counterexample: 3 hp left out of 10,
wired to `player_death`. -/
def pfC9 : Fighter :=
  { base_max_hp := 10, hp := 3, base_defence := 0, base_power := 2,
    xp := 0, death_function := some DeathFn.playerDeath }

/-- The player object for the C9 counterexample. -/
def playerObjC9 : Obj :=
  { id := 1, x := 0, y := 0, char := '@', name := "player"
    color := Color.white, blocks := true, fighter := some pfC9 }

/-- A full-health orc about to land a lethal blow (claim C9). -/
def orcC9 : Obj :=
  { id := 3, x := 1, y := 0, char := 'o', name := "orc"
    color := Color.desaturated_green, blocks := true
    fighter := some orcFighter }

/-- The quiescent world before the lethal blow (claim C9). -/
def gsC9 : GS :=
  { map := wallMap, objects := [playerObjC9, orcC9], player_id := 1
    stairs_id := 2, inventory := [], dungeon_level := 1, game_msgs := []
    game_state := "playing", fov_map := blankFov, fov_recompute := false }

/-! ## Claim C10: the message buffer never exceeds MSG_HEIGHT lines -/

theorem suffix_append_right {A : Type} {l1 l2 : List A} (h : l1 <:+ l2)
    (l : List A) : l1 ++ l <:+ l2 ++ l := by
  obtain ⟨t, ht⟩ := h
  exact ⟨t, by rw [← List.append_assoc, ht]⟩

theorem appendMsgLine_length (msgs : List (String × Color)) (l : String)
    (c : Color) (h : msgs.length ≤ MSG_HEIGHT) :
    (appendMsgLine msgs l c).length = min MSG_HEIGHT (msgs.length + 1) := by
  have hM : MSG_HEIGHT = 6 := rfl
  unfold appendMsgLine
  by_cases hl : msgs.length = MSG_HEIGHT
  · simp only [if_pos hl, List.length_append, List.length_drop,
      List.length_cons, List.length_nil]
    omega
  · simp only [if_neg hl, List.length_append, List.length_cons,
      List.length_nil]
    omega

theorem messageLines_suffix (lines : List String) :
    ∀ (msgs : List (String × Color)) (c : Color), msgs.length ≤ MSG_HEIGHT →
      messageLines msgs lines c <:+ msgs ++ lines.map (fun s => (s, c)) ∧
      (messageLines msgs lines c).length
        = min MSG_HEIGHT (msgs.length + lines.length) := by
  have hM : MSG_HEIGHT = 6 := rfl
  induction lines with
  | nil =>
    intro msgs c h
    constructor
    · simp [messageLines]
    · simp [messageLines]
      omega
  | cons l ls ih =>
    intro msgs c h
    have hstep : messageLines msgs (l :: ls) c
        = messageLines (appendMsgLine msgs l c) ls c := rfl
    have hlen1 : (appendMsgLine msgs l c).length
        = min MSG_HEIGHT (msgs.length + 1) := appendMsgLine_length msgs l c h
    have hle : (appendMsgLine msgs l c).length ≤ MSG_HEIGHT := by omega
    obtain ⟨hsuf, hlen⟩ := ih (appendMsgLine msgs l c) c hle
    constructor
    · rw [hstep]
      refine hsuf.trans ?_
      have h2 : appendMsgLine msgs l c <:+ msgs ++ [(l, c)] := by
        unfold appendMsgLine
        by_cases hl2 : msgs.length = MSG_HEIGHT
        · simp only [if_pos hl2]
          exact suffix_append_right (List.drop_suffix 1 msgs) _
        · simp only [if_neg hl2]
          exact List.suffix_refl _
      have h3 : appendMsgLine msgs l c ++ ls.map (fun s => (s, c))
          <:+ (msgs ++ [(l, c)]) ++ ls.map (fun s => (s, c)) :=
        suffix_append_right h2 _
      simpa [List.append_assoc] using h3
    · rw [hstep, hlen, hlen1]
      simp only [List.length_cons]
      omega

/-- C10: for every sequence of appended messages the game message log
never holds more than `MSG_HEIGHT` (6) line entries: appending the wrapped
lines of a message always yields a suffix (the most recent lines, in
order) of everything appended so far, the oldest lines having been removed
first. -/
theorem message_buffer_bounded_suffix (msgs : List (String × Color))
    (lines : List String) (c : Color) (h : msgs.length ≤ MSG_HEIGHT) :
    (messageLines msgs lines c).length ≤ MSG_HEIGHT ∧
    (messageLines msgs lines c).length
      = min MSG_HEIGHT (msgs.length + lines.length) ∧
    messageLines msgs lines c <:+ msgs ++ lines.map (fun s => (s, c)) := by
  obtain ⟨h1, h2⟩ := messageLines_suffix lines msgs c h
  have hM : MSG_HEIGHT = 6 := rfl
  exact ⟨by omega, h2, h1⟩

/-- Witness for C10: a full six-line buffer receiving a two-line message
still holds exactly six lines. -/
theorem message_buffer_bounded_suffix_witness :
    (List.replicate 6 ("old", Color.white)).length ≤ MSG_HEIGHT ∧
    (messageLines (List.replicate 6 ("old", Color.white)) ["a", "b"]
        Color.red).length ≤ MSG_HEIGHT :=
  ⟨by decide,
   (message_buffer_bounded_suffix (List.replicate 6 ("old", Color.white))
      ["a", "b"] Color.red (by decide)).1⟩

/-! ## Claim C4: derived stats are base plus equipped bonuses -/

theorem sum_equipped_filterMap (inv : List Obj) (g : Equipment → Int) :
    (((inv.filterMap (fun it =>
        match it.equipment with
        | some e => if e.is_equipped then some e else none
        | none => none)).map g).sum)
      = (inv.map (fun o =>
          match o.equipment with
          | some e => if e.is_equipped then g e else 0
          | none => 0)).sum := by
  induction inv with
  | nil => rfl
  | cons o rest ih =>
    cases h : o.equipment with
    | none => simp [List.filterMap_cons, h, ih]
    | some e =>
      by_cases he : e.is_equipped
      · simp [List.filterMap_cons, h, he, ih]
      · simp [List.filterMap_cons, h, he, ih]

/-- C4: for every Fighter-bearing entity the derived `power`, `defence`
and `max_hp` equal the base stat plus the sum of the matching bonuses of
the currently-equipped equipment in the inventory when the owner is the
player, and exactly the base stat (zero equipment contribution) for every
other entity. -/
theorem derived_stats_base_plus_equipped_bonuses (gs : GS) (owner : Obj)
    (f : Fighter) :
    (owner.id = gs.player_id →
      Fighter.power gs owner f = f.base_power + (gs.inventory.map (fun o =>
          match o.equipment with
          | some e => if e.is_equipped then e.power_bonus else 0
          | none => 0)).sum ∧
      Fighter.defence gs owner f = f.base_defence + (gs.inventory.map (fun o =>
          match o.equipment with
          | some e => if e.is_equipped then e.defence_bonus else 0
          | none => 0)).sum ∧
      Fighter.max_hp gs owner f = f.base_max_hp + (gs.inventory.map (fun o =>
          match o.equipment with
          | some e => if e.is_equipped then e.max_hp_bonus else 0
          | none => 0)).sum) ∧
    (owner.id ≠ gs.player_id →
      Fighter.power gs owner f = f.base_power ∧
      Fighter.defence gs owner f = f.base_defence ∧
      Fighter.max_hp gs owner f = f.base_max_hp) := by
  constructor
  · intro h
    refine ⟨?_, ?_, ?_⟩ <;>
      simp [Fighter.power, Fighter.defence, Fighter.max_hp,
        get_all_equipment, h, sum_equipped_filterMap]
  · intro h
    refine ⟨?_, ?_, ?_⟩ <;>
      simp [Fighter.power, Fighter.defence, Fighter.max_hp,
        get_all_equipment, h]

/-! ## Identity lookup lemmas -/

theorem lookupId_mem_nodup (l : List Obj) (o : Obj) (hmem : o ∈ l)
    (hnd : (l.map Obj.id).Nodup) : lookupId l o.id = some o := by
  induction l with
  | nil => cases hmem
  | cons a t ih =>
    by_cases h : a.id = o.id
    · have ha : o = a := by
        cases hmem with
        | head => rfl
        | tail _ h2 =>
          exfalso
          have : o.id ∈ t.map Obj.id := List.mem_map_of_mem Obj.id h2
          rw [List.map_cons, List.nodup_cons] at hnd
          exact hnd.1 (h ▸ this)
      subst ha
      simp [lookupId]
    · have hmem2 : o ∈ t := by
        cases hmem with
        | head => exact absurd rfl h
        | tail _ h2 => exact h2
      rw [List.map_cons, List.nodup_cons] at hnd
      rw [lookupId, if_neg h]
      exact ih hmem2 hnd.2

theorem lookupId_map_upd (l : List Obj) (i j : Nat) (upd : Obj → Obj)
    (hid : ∀ o, (upd o).id = o.id) :
    lookupId (l.map (fun o => if o.id = i then upd o else o)) j
      = (lookupId l j).map (fun o => if o.id = i then upd o else o) := by
  induction l with
  | nil => rfl
  | cons a t ih =>
    have hhead : (if a.id = i then upd a else a).id = a.id := by
      by_cases h : a.id = i <;> simp [h, hid]
    by_cases h : a.id = j
    · simp only [List.map_cons, lookupId]
      rw [hhead]
      simp [h]
    · simp only [List.map_cons, lookupId]
      rw [hhead]
      simp [h, ih]

theorem eq_of_mem_mem_id (l : List Obj) (a b : Obj) (ha : a ∈ l) (hb : b ∈ l)
    (hnd : (l.map Obj.id).Nodup) (hid : a.id = b.id) : a = b := by
  have h1 := lookupId_mem_nodup l a ha hnd
  have h2 := lookupId_mem_nodup l b hb hnd
  rw [hid] at h1
  exact Option.some.inj (h1.symm.trans h2)

theorem mem_removeById (l : List Obj) (i : Nat) (o : Obj)
    (h : o ∈ removeById l i) : o ∈ l := by
  induction l with
  | nil => cases h
  | cons a t ih =>
    by_cases ha : a.id = i
    · simp only [removeById, if_pos ha] at h
      exact List.mem_cons_of_mem a h
    · simp only [removeById, if_neg ha] at h
      cases h with
      | head => exact List.mem_cons_self _ _
      | tail _ h2 => exact List.mem_cons_of_mem _ (ih h2)

/-! ## Claim C1: pickup at capacity (code bug: auto-equip still fires) -/

/-- C1 evidence: picking up a 27th item (an unequipped shield) with the
inventory already holding 26 leaves the inventory unchanged at 26 entries
and leaves the shield in the live map collection — but the auto-equip
special case, which in the source sits outside the `else` of the capacity
check, still runs and flips the shield's `is_equipped` flag from `false`
to `true`, so the "no state change" part of the claim fails on the code. -/
theorem pickup_capacity_autoequips_anyway :
    gsC1.inventory.length = 26 ∧
    shieldC1.equipment.map Equipment.is_equipped = some false ∧
    (Item.pick_up gsC1 shieldC1).inventory = gsC1.inventory ∧
    lookupId (Item.pick_up gsC1 shieldC1).objects shieldC1.id
      = some (setEquipFlag true shieldC1) ∧
    (setEquipFlag true shieldC1).equipment.map Equipment.is_equipped
      = some true := by
  refine ⟨rfl, rfl, ?_, ?_, rfl⟩ <;> decide

/-! ## Claim C2: the damage formula -/

theorem take_damage_noop (gs : GS) (owner : Obj) (f : Fighter)
    (damage : Int) (h : damage ≤ 0) :
    Fighter.take_damage gs owner f damage = gs := by
  unfold Fighter.take_damage
  rw [if_neg (not_lt.mpr h)]

theorem take_damage_surviving (gs : GS) (owner : Obj) (f : Fighter)
    (damage : Int) (h1 : 0 < damage) (h2 : 0 < f.hp - damage) :
    Fighter.take_damage gs owner f damage
      = gs.mutateObj owner.id (fun o =>
          { o with fighter := some { f with hp := f.hp - damage } }) := by
  unfold Fighter.take_damage
  rw [if_pos h1]
  simp only []
  rw [if_neg (not_le.mpr h2)]

theorem take_damage_lethal_player (gs : GS) (owner : Obj) (f : Fighter)
    (damage : Int) (h1 : 0 < damage) (h2 : f.hp - damage ≤ 0)
    (hdf : f.death_function = some DeathFn.playerDeath)
    (hpid : owner.id = gs.player_id) :
    Fighter.take_damage gs owner f damage
      = player_death (gs.mutateObj owner.id (fun o =>
          { o with fighter := some { f with hp := f.hp - damage } })) owner.id := by
  unfold Fighter.take_damage
  rw [if_pos h1]
  simp only [hdf]
  rw [if_pos h2, if_neg]
  simp [GS.mutateObj, hpid]

theorem message_objects (gs : GS) (s : String) (c : Color) :
    (gs.message s c).objects = gs.objects := rfl

theorem message_inventory (gs : GS) (s : String) (c : Color) :
    (gs.message s c).inventory = gs.inventory := rfl

theorem message_game_msgs (gs : GS) (s : String) (c : Color) :
    (gs.message s c).game_msgs
      = messageLines gs.game_msgs (textwrap s MSG_WIDTH) c := rfl

theorem mutateObj_objects (gs : GS) (i : Nat) (upd : Obj → Obj) :
    (gs.mutateObj i upd).objects
      = gs.objects.map (fun o => if o.id = i then upd o else o) := rfl

theorem lookupId_mutateObj (gs : GS) (i : Nat) (upd : Obj → Obj) (j : Nat)
    (hid : ∀ o, (upd o).id = o.id) :
    lookupId (gs.mutateObj i upd).objects j
      = (lookupId gs.objects j).map (fun o => if o.id = i then upd o else o) :=
  lookupId_map_upd gs.objects i j upd hid

theorem attack_pos (gs : GS) (attacker : Obj) (af : Fighter) (target : Obj)
    (tf : Fighter)
    (h : 0 < Fighter.power gs attacker af - Fighter.defence gs target tf) :
    Fighter.attack gs attacker af target tf
      = Fighter.take_damage
          (gs.message (attacker.name.capitalize ++ " attacks " ++ target.name
            ++ " for "
            ++ toString (Fighter.power gs attacker af - Fighter.defence gs target tf)
            ++ " HP.") Color.white)
          target tf
          (Fighter.power gs attacker af - Fighter.defence gs target tf) := by
  unfold Fighter.attack
  simp only []
  rw [if_pos h]

theorem attack_nonpos (gs : GS) (attacker : Obj) (af : Fighter) (target : Obj)
    (tf : Fighter)
    (h : Fighter.power gs attacker af - Fighter.defence gs target tf ≤ 0) :
    Fighter.attack gs attacker af target tf
      = gs.message (attacker.name.capitalize ++ " attacks " ++ target.name
          ++ " but it has no effect!") Color.white := by
  unfold Fighter.attack
  simp only []
  rw [if_neg (not_lt.mpr h)]

/-- C2: in every attack the damage dealt is exactly
`attacker.power - defender.defence`.  When the difference is positive the
defender's hp drops by exactly that amount — in particular, a lethal hit
records `hp - damage` (not a value floored at 0) on the Fighter inspected
by the death check, as the player's corpse shows.  When the difference is
not positive the attack only reports "no effect" and the defender (and
all other state except the log) is unchanged. -/
theorem attack_damage_formula (gs : GS) (attacker target : Obj)
    (af tf : Fighter) (damage : Int)
    (hmem : target ∈ gs.objects)
    (hnd : (gs.objects.map Obj.id).Nodup)
    (hdmg : damage = Fighter.power gs attacker af - Fighter.defence gs target tf) :
    (0 < damage → 0 < tf.hp - damage →
      lookupId (Fighter.attack gs attacker af target tf).objects target.id
        = some { target with fighter := some { tf with hp := tf.hp - damage } }) ∧
    (0 < damage → tf.hp - damage ≤ 0 →
      tf.death_function = some DeathFn.playerDeath → target.id = gs.player_id →
      lookupId (Fighter.attack gs attacker af target tf).objects target.id
        = some { target with
                 char := '%'
                 color := Color.dark_red
                 fighter := some { tf with hp := tf.hp - damage } } ∧
      (Fighter.attack gs attacker af target tf).game_state = "dead") ∧
    (damage ≤ 0 →
      (Fighter.attack gs attacker af target tf).objects = gs.objects ∧
      (Fighter.attack gs attacker af target tf).inventory = gs.inventory ∧
      (Fighter.attack gs attacker af target tf).game_msgs
        = messageLines gs.game_msgs
            (textwrap (attacker.name.capitalize ++ " attacks " ++ target.name
              ++ " but it has no effect!") MSG_WIDTH) Color.white) := by
  subst hdmg
  refine ⟨?_, ?_, ?_⟩
  · intro h1 h2
    rw [attack_pos gs attacker af target tf h1,
      take_damage_surviving _ _ _ _ h1 h2,
      lookupId_mutateObj _ _ _ _ (by intro o; rfl), message_objects,
      lookupId_mem_nodup gs.objects target hmem hnd]
    simp
  · intro h1 h2 hdf hpid
    rw [attack_pos gs attacker af target tf h1,
      take_damage_lethal_player _ _ _ _ h1 h2 hdf (by exact hpid)]
    constructor
    · simp only [player_death, GS.mutateObj, GS.message]
      rw [lookupId_map_upd _ _ _ _ (by intro o; rfl),
        lookupId_map_upd _ _ _ _ (by intro o; rfl),
        lookupId_mem_nodup gs.objects target hmem hnd]
      simp
    · rfl
  · intro h
    rw [attack_nonpos gs attacker af target tf h]
    exact ⟨rfl, rfl, rfl⟩

/-- Witness for C2 at the spec's example: power 5 against defence 2 deals
exactly 3 damage to a 30-hp defender. -/
theorem attack_damage_formula_witness :
    lookupId (Fighter.attack gsC2 atkC2 afC2 defC2 tfC2).objects defC2.id
      = some { defC2 with fighter := some { tfC2 with hp := tfC2.hp - 3 } } :=
  (attack_damage_formula gsC2 atkC2 defC2 afC2 tfC2 3 (by decide) (by decide)
    (by decide)).1 (by decide) (by decide)

/-- Witness for C4 at the spec's example: base power 4 with equipped +3
and +1 items reads 8. -/
theorem derived_stats_base_plus_equipped_bonuses_witness :
    playerC4.id = gsC4.player_id ∧ Fighter.power gsC4 playerC4 fighterC4 = 8 := by
  refine ⟨rfl, ?_⟩
  rw [((derived_stats_base_plus_equipped_bonuses gsC4 playerC4 fighterC4).1 rfl).1]
  decide

/-! ## Claim C6: item use, equipment toggling, cancellation -/

theorem mutateObj_inventory (gs : GS) (i : Nat) (upd : Obj → Obj) :
    (gs.mutateObj i upd).inventory
      = gs.inventory.map (fun o => if o.id = i then upd o else o) := rfl

/-- C6: using an inventory item.  An Equipment-bearing item toggles its
equip state and is not removed from the inventory; otherwise the stored
effect runs first and the item is consumed from the inventory exactly
when the effect did not report "cancelled" — with `cast_heal` at full
health as the canonical cancelled effect. -/
theorem item_use_consumption (gs : GS) (owner : Obj)
    (use_function : Option (GS → GS × Option String))
    (hmem : owner ∈ gs.inventory)
    (hnd : (gs.inventory.map Obj.id).Nodup) :
    (∀ e, owner.equipment = some e →
      Item.use gs owner use_function = Equipment.toogle_equip gs owner e ∧
      lookupId (Equipment.toogle_equip gs owner e).inventory owner.id
        = some (setEquipFlag (!e.is_equipped) owner) ∧
      (Equipment.toogle_equip gs owner e).inventory.length
        = gs.inventory.length) ∧
    (owner.equipment = none → ∀ f gs1 r, use_function = some f →
      f gs = (gs1, r) →
      (r = some "cancelled" → Item.use gs owner use_function = gs1) ∧
      (r ≠ some "cancelled" → Item.use gs owner use_function
          = { gs1 with inventory := removeById gs1.inventory owner.id })) ∧
    (∀ p pf, lookupId gs.objects gs.player_id = some p → p.fighter = some pf →
      pf.hp = Fighter.max_hp gs p pf →
      cast_heal gs
        = (gs.message "You are already at full health!" Color.light_red,
           some "cancelled")) := by
  refine ⟨?_, ?_, ?_⟩
  · intro e he
    refine ⟨by simp [Item.use, he], ?_, ?_⟩
    · unfold Equipment.toogle_equip
      by_cases hq : e.is_equipped
      · rw [if_pos hq]
        unfold Equipment.dequip
        simp only [he]
        rw [if_pos hq, message_inventory, mutateObj_inventory,
          lookupId_map_upd _ _ _ _ (by intro o; rfl),
          lookupId_mem_nodup gs.inventory owner hmem hnd]
        simp [hq]
      · have hqf : e.is_equipped = false := Bool.eq_false_iff.mpr hq
        rw [if_neg hq]
        unfold Equipment.equip
        cases hold : get_equipped_in_slot gs e.slot with
        | none =>
          simp only [hold, message_inventory, mutateObj_inventory]
          rw [lookupId_map_upd _ _ _ _ (by intro o; rfl),
            lookupId_mem_nodup gs.inventory owner hmem hnd]
          simp [hqf]
        | some old =>
          unfold get_equipped_in_slot at hold
          have hpred := List.find?_some hold
          have holdmem := List.mem_of_find?_eq_some hold
          cases hoe : old.equipment with
          | none => simp [hoe] at hpred
          | some oe =>
            simp only [hoe, Bool.and_eq_true, decide_eq_true_eq] at hpred
            have hoeq : oe.is_equipped = true := hpred.2
            have hne : ¬owner.id = old.id := by
              intro hEq
              have heq2 : old = owner :=
                eq_of_mem_mem_id gs.inventory old owner holdmem hmem hnd
                  hEq.symm
              subst heq2
              rw [he] at hoe
              injection hoe with h3
              subst h3
              rw [hoeq] at hqf
              cases hqf
            simp only [hold]
            unfold Equipment.dequip
            simp only [hoe]
            rw [if_pos hoeq]
            simp only [message_inventory, mutateObj_inventory]
            rw [lookupId_map_upd _ _ _ _ (by intro o; rfl),
              lookupId_map_upd _ _ _ _ (by intro o; rfl),
              lookupId_mem_nodup gs.inventory owner hmem hnd]
            simp [hne, hqf]
    · unfold Equipment.toogle_equip
      by_cases hq : e.is_equipped
      · rw [if_pos hq]
        unfold Equipment.dequip
        simp only [he]
        rw [if_pos hq]
        simp [message_inventory, mutateObj_inventory]
      · rw [if_neg hq]
        unfold Equipment.equip
        cases hold : get_equipped_in_slot gs e.slot with
        | none => simp [hold, message_inventory, mutateObj_inventory]
        | some old =>
          unfold get_equipped_in_slot at hold
          have hpred := List.find?_some hold
          cases hoe : old.equipment with
          | none => simp [hoe] at hpred
          | some oe =>
            simp only [hoe, Bool.and_eq_true, decide_eq_true_eq] at hpred
            have hoeq : oe.is_equipped = true := hpred.2
            simp only [hold]
            unfold Equipment.dequip
            simp only [hoe]
            rw [if_pos hoeq]
            simp [message_inventory, mutateObj_inventory]
  · intro he f gs1 r hu heq
    subst hu
    constructor
    · intro hr
      simp [Item.use, he, heq, hr]
    · intro hr
      simp [Item.use, he, heq, hr]
  · intro p pf hp hf hfull
    simp [cast_heal, hp, hf, hfull]

/-- Witness for C6: a potion used at full health is cancelled and stays
in the inventory, the state changing only by the report message. -/
theorem item_use_consumption_witness :
    Item.use gsC6 potC6 (some cast_heal)
      = gsC6.message "You are already at full health!" Color.light_red := by
  have hthm := item_use_consumption gsC6 potC6 (some cast_heal) (by decide)
    (by decide)
  have hcancel := hthm.2.2 playerC6 fighterC4 (by decide) (by decide)
    (by decide)
  exact (hthm.2.1 rfl cast_heal _ _ rfl hcancel).1 rfl

/-! ## Claim C3: save/load round trip -/

theorem findIdx_get_id (l : List Obj) (pid : Nat) (o : Obj)
    (hmem : o ∈ l) (hid : o.id = pid) :
    ∃ i o2, l.findIdx? (fun x => x.id == pid) = some i ∧
      l.get? i = some o2 ∧ o2.id = pid := by
  induction l with
  | nil => cases hmem
  | cons a t ih =>
    by_cases h : a.id = pid
    · exact ⟨0, a, by simp [h], rfl, h⟩
    · have hmem2 : o ∈ t := by
        cases hmem with
        | head => exact absurd hid h
        | tail _ h2 => exact h2
      obtain ⟨i, o2, hfi, hget, ho2⟩ := ih hmem2
      refine ⟨i + 1, o2, ?_, hget, ho2⟩
      simp [List.findIdx?_cons, h, List.findIdx?_succ, hfi]

/-- C3: saving and then loading reproduces the world exactly: the grid
with its explored flags, the entity collection in order with all
components (including a mid-confusion AI countdown), the inventory in
order, the depth counter, the message log and the game-state string; the
player and stairs references — stored as positional indices — resolve to
entities at the same positions carrying the same identities; and the
loaded world's fov state is rebuilt from the loaded grid with the
visibility flag marked dirty. -/
theorem save_load_round_trip (gs : GS) (p st : Obj)
    (hp : p ∈ gs.objects) (hpid : p.id = gs.player_id)
    (hs : st ∈ gs.objects) (hsid : st.id = gs.stairs_id) :
    ∃ sf, save_game gs = some sf ∧
      load_game sf = some { gs with fov_map := initialize_fov_map gs.map
                                    fov_recompute := true } := by
  obtain ⟨pi, p2, hfp, hgp, hip⟩ := findIdx_get_id gs.objects gs.player_id p hp hpid
  obtain ⟨si, s2, hfs, hgs, his⟩ := findIdx_get_id gs.objects gs.stairs_id st hs hsid
  refine ⟨{ map := gs.map
            objects := gs.objects
            player_index := pi
            stairs_index := si
            inventory := gs.inventory
            dungeon_level := gs.dungeon_level
            game_msgs := gs.game_msgs
            game_state := gs.game_state }, ?_, ?_⟩
  · simp only [save_game, hfp, hfs]
  · simp only [load_game, hgp, hgs, hip, his]

/-- Witness for C3: a world with a mid-confusion monster (3 turns left),
an inventory item, log contents and depth 4 round-trips, the fov state
rebuilt from the grid and marked dirty. -/
theorem save_load_round_trip_witness :
    ∃ sf, save_game gsC3 = some sf ∧
      load_game sf = some { gsC3 with fov_map := initialize_fov_map gsC3.map
                                      fov_recompute := true } :=
  save_load_round_trip gsC3 playerC3 stairsC3 (by decide) (by decide)
    (by decide) (by decide)

/-! ## Claim C5: pathfinding step selection -/

theorem roundUnit_neg (d s : Int) : roundUnit (-d) s = -(roundUnit d s) := by
  unfold roundUnit
  have h2 : (-d) ^ 2 = d ^ 2 := by ring
  rw [h2]
  by_cases hc : s ≤ 4 * d ^ 2
  · rw [if_pos hc, if_pos hc]
    rcases lt_trichotomy d 0 with h | h | h
    · rw [if_pos (by omega : (0:Int) < -d), if_neg (by omega : ¬(0:Int) < d),
        if_pos h]
      norm_num
    · subst h
      norm_num
    · rw [if_neg (by omega : ¬(0:Int) < -d), if_pos (by omega : -d < 0),
        if_pos h]
  · rw [if_neg hc, if_neg hc]
    norm_num

theorem roundUnit_floor_aux (d s : Int) (hs : 0 < s) (hd2 : d ^ 2 ≤ s)
    (hd : 0 ≤ d) :
    (roundUnit d s : Int) = ⌊(d : ℝ) / Real.sqrt (s : ℝ) + 1 / 2⌋ := by
  have hsR : (0:ℝ) < (s:ℝ) := by exact_mod_cast hs
  have hsq : (0:ℝ) < Real.sqrt (s : ℝ) := Real.sqrt_pos.mpr hsR
  have hdR : (0:ℝ) ≤ (d:ℝ) := by exact_mod_cast hd
  unfold roundUnit
  by_cases hc : s ≤ 4 * d ^ 2
  · have hdpos : 0 < d := by nlinarith
    rw [if_pos hc, if_pos hdpos]
    symm
    rw [Int.floor_eq_iff]
    have hcR : (s:ℝ) ≤ 4 * (d:ℝ) ^ 2 := by exact_mod_cast hc
    have h2d : Real.sqrt (s : ℝ) ≤ 2 * (d:ℝ) := by
      have h1 : Real.sqrt (s : ℝ) ≤ Real.sqrt ((2 * (d:ℝ)) ^ 2) :=
        Real.sqrt_le_sqrt (by nlinarith)
      rwa [Real.sqrt_sq (by positivity)] at h1
    have hd2R : (d:ℝ) ^ 2 ≤ (s:ℝ) := by exact_mod_cast hd2
    have hle : (d:ℝ) ≤ Real.sqrt (s : ℝ) := by
      have h1 : Real.sqrt ((d:ℝ) ^ 2) ≤ Real.sqrt (s : ℝ) :=
        Real.sqrt_le_sqrt hd2R
      rwa [Real.sqrt_sq hdR] at h1
    constructor
    · have hhalf : (1:ℝ)/2 ≤ (d:ℝ) / Real.sqrt (s : ℝ) := by
        rw [div_le_div_iff₀ (by norm_num) hsq]
        linarith
      push_cast
      linarith
    · have hone : (d:ℝ) / Real.sqrt (s : ℝ) ≤ 1 := by
        rw [div_le_one hsq]
        exact hle
      push_cast
      linarith
  · rw [if_neg hc]
    symm
    rw [Int.floor_eq_iff]
    have hcR : 4 * (d:ℝ) ^ 2 < (s:ℝ) := by
      have := not_le.mp hc
      exact_mod_cast this
    have h2d : 2 * (d:ℝ) < Real.sqrt (s : ℝ) := by
      have h1 : Real.sqrt ((2 * (d:ℝ)) ^ 2) < Real.sqrt (s : ℝ) :=
        Real.sqrt_lt_sqrt (by positivity) (by nlinarith)
      rwa [Real.sqrt_sq (by positivity)] at h1
    constructor
    · have : 0 ≤ (d:ℝ) / Real.sqrt (s : ℝ) := div_nonneg hdR hsq.le
      push_cast
      linarith
    · have hhalf : (d:ℝ) / Real.sqrt (s : ℝ) < 1/2 := by
        rw [div_lt_div_iff₀ hsq (by norm_num)]
        linarith
      push_cast
      linarith

/-- `roundUnit` agrees with the Python expression
`int(round(d / math.sqrt(s)))` (rounding half away from zero): for
integers with `0 < s` and `d ^ 2 ≤ s` it equals `⌊d/√s + 1/2⌋` when the
quotient is nonnegative and the mirrored value otherwise. -/
theorem roundUnit_eq_round_div_sqrt (d s : Int) (hs : 0 < s)
    (hd2 : d ^ 2 ≤ s) :
    (roundUnit d s : Int) =
      (if 0 ≤ (d : ℝ) / Real.sqrt (s : ℝ) then
        ⌊(d : ℝ) / Real.sqrt (s : ℝ) + 1 / 2⌋
      else -⌊-((d : ℝ) / Real.sqrt (s : ℝ)) + 1 / 2⌋) := by
  have hsR : (0:ℝ) < (s:ℝ) := by exact_mod_cast hs
  have hsq : (0:ℝ) < Real.sqrt (s : ℝ) := Real.sqrt_pos.mpr hsR
  rcases le_or_lt 0 d with hd | hd
  · have ht0 : 0 ≤ (d:ℝ) / Real.sqrt (s : ℝ) :=
      div_nonneg (by exact_mod_cast hd) hsq.le
    rw [if_pos ht0]
    exact roundUnit_floor_aux d s hs hd2 hd
  · have ht0 : (d:ℝ) / Real.sqrt (s : ℝ) < 0 :=
      div_neg_of_neg_of_pos (by exact_mod_cast hd) hsq
    rw [if_neg (not_le.mpr ht0)]
    have haux := roundUnit_floor_aux (-d) s hs (by nlinarith) (by omega)
    have hodd := roundUnit_neg d s
    have hcast : -((d:ℝ) / Real.sqrt (s : ℝ)) = ((-d : Int) : ℝ) / Real.sqrt (s : ℝ) := by
      push_cast
      ring
    rw [hcast, ← haux, hodd]
    ring

theorem move_map (gs : GS) (self : Obj) (dx dy : Int) :
    (Object.move gs self dx dy).map = gs.map := by
  unfold Object.move
  by_cases hb : isBlocked gs (self.x + dx) (self.y + dy)
  · rw [if_pos hb]
  · rw [if_neg hb]
    rfl

/-- C5: step selection of `move_astar`.  When the (libtcod-computed) A*
path over the derived obstacle map exists and is below the 25-step
ceiling, the mover jumps to the path's next cell (the second node,
counting the mover's own cell as the first); otherwise the attempted step
is the unit vector toward the target with each axis independently rounded
to the nearest of -1, 0, 1, and that step goes through the silent-no-op
`Object.move` contract.  In all cases the grid tiles are unchanged. -/
theorem move_astar_step_selection (gs : GS) (self target : Obj)
    (path : List (Int × Int))
    (hmem : self ∈ gs.objects) (hnd : (gs.objects.map Obj.id).Nodup)
    (hwall : (gs.map 0 0).blocked = true)
    (hpath : ∀ q ∈ path, astarWalkable gs self target q.1 q.2 = true)
    (hne : ¬(self.x = target.x ∧ self.y = target.y)) :
    (path ≠ [] → path.length < 25 →
      Object.move_astar gs self target path
        = some (gs.mutateObj self.id (fun o =>
            { o with x := (path.headD (0, 0)).1, y := (path.headD (0, 0)).2 })) ∧
      lookupId (gs.mutateObj self.id (fun o =>
          { o with x := (path.headD (0, 0)).1
                   y := (path.headD (0, 0)).2 })).objects self.id
        = some { self with x := (path.headD (0, 0)).1
                           y := (path.headD (0, 0)).2 }) ∧
    ((path = [] ∨ 25 ≤ path.length) →
      Object.move_astar gs self target path
        = some (Object.move gs self
            (roundUnit (target.x - self.x)
              ((target.x - self.x) ^ 2 + (target.y - self.y) ^ 2))
            (roundUnit (target.y - self.y)
              ((target.x - self.x) ^ 2 + (target.y - self.y) ^ 2)))) ∧
    (∀ gs2, Object.move_astar gs self target path = some gs2 →
      gs2.map = gs.map) := by
  have hs0 : ¬((target.x - self.x) ^ 2 + (target.y - self.y) ^ 2 = 0) := by
    intro h0
    have hx2 : (target.x - self.x) ^ 2 = 0 := by
      have h1 := sq_nonneg (target.x - self.x)
      have h2 := sq_nonneg (target.y - self.y)
      omega
    have hy2 : (target.y - self.y) ^ 2 = 0 := by
      have h1 := sq_nonneg (target.x - self.x)
      omega
    have hx := (pow_eq_zero_iff (by norm_num : (2:Nat) ≠ 0)).mp hx2
    have hy := (pow_eq_zero_iff (by norm_num : (2:Nat) ≠ 0)).mp hy2
    exact hne ⟨by omega, by omega⟩
  refine ⟨?_, ?_, ?_⟩
  · intro hnil hlen
    have hcond : ¬path.isEmpty ∧ path.length < 25 :=
      ⟨by simpa using hnil, hlen⟩
    have hq0 : ¬((path.headD (0, 0)).1 = 0 ∧ (path.headD (0, 0)).2 = 0) := by
      cases path with
      | nil => exact absurd rfl hnil
      | cons q rest =>
        intro hq
        have hw := hpath q (List.mem_cons_self _ _)
        unfold astarWalkable at hw
        rw [Bool.and_eq_true] at hw
        have hb : (gs.map q.1 q.2).blocked = false := by
          have := hw.1
          simpa using this
        simp only [List.headD_cons] at hq
        rw [hq.1, hq.2] at hb
        rw [hwall] at hb
        cases hb
    constructor
    · unfold Object.move_astar
      rw [if_pos hcond, if_pos hq0]
    · rw [lookupId_mutateObj _ _ _ _ (by intro o; rfl),
        lookupId_mem_nodup gs.objects self hmem hnd]
      simp
  · intro hor
    have hcond : ¬(¬path.isEmpty ∧ path.length < 25) := by
      rcases hor with h | h
      · subst h
        simp
      · rintro ⟨-, hlt⟩
        omega
    unfold Object.move_astar
    rw [if_neg hcond]
    simp only [Object.move_towards]
    rw [if_neg hs0]
  · intro gs2 h
    unfold Object.move_astar at h
    by_cases hcond : ¬path.isEmpty ∧ path.length < 25
    · rw [if_pos hcond] at h
      by_cases h0 : ¬((path.headD (0, 0)).1 = 0 ∧ (path.headD (0, 0)).2 = 0)
      · rw [if_pos h0] at h
        injection h with h2
        rw [← h2]
        rfl
      · rw [if_neg h0] at h
        injection h with h2
        rw [← h2]
    · rw [if_neg hcond] at h
      simp only [Object.move_towards] at h
      rw [if_neg hs0] at h
      injection h with h2
      rw [← h2, move_map]

/-- Witness for C5: with a two-cell path down an open corridor the mover
jumps to the path's first cell, and the grid is untouched. -/
theorem move_astar_step_selection_witness :
    Object.move_astar gsC5 selfC5 targetC5 [(2, 1), (3, 1)]
      = some (gsC5.mutateObj selfC5.id (fun o =>
          { o with x := (([((2:Int), (1:Int)), (3, 1)]).headD (0, 0)).1
                   y := (([((2:Int), (1:Int)), (3, 1)]).headD (0, 0)).2 })) :=
  ((move_astar_step_selection gsC5 selfC5 targetC5 [(2, 1), (3, 1)]
    (by decide) (by decide) (by decide) (by decide) (by decide)).1
    (by decide) (by decide)).1

/-! ## Claims C7/C8: the dungeon generator -/

/-- C8 evidence (code bug): at depth 8 the shield row of the item table
has positive weight, and the shield branch of `place_objects` never
constructs an entity — on the first item iteration of a room the
unassigned `item` local is referenced and placement aborts, so no shield
entity is ever appended to the live collection. -/
theorem place_objects_shield_never_appended :
    from_dungeon_level 8 [(15, 8)] = 15 ∧
    place_objects rngC8 8 roomC8 stC8
      = Except.error
          "UnboundLocalError: local variable item referenced before assignment" :=
  ⟨rfl, rfl⟩

/-- C7 counterexample: a depth-8 generator run crashes — the first room's
single item draw lands on the shield row and the placement step raises. -/
theorem make_map_crashes_on_shield_draw :
    make_map rngC7 8 playerC7 1
      = Except.error
          "UnboundLocalError: local variable item referenced before assignment" := rfl

theorem randInt_bounds (rng : Nat → Int) (i : Nat) (lo hi : Int)
    (h : lo ≤ hi) : lo ≤ randInt rng i lo hi ∧ randInt rng i lo hi ≤ hi := by
  unfold randInt
  have h1 := Int.emod_nonneg (rng i) (by omega : hi - lo + 1 ≠ 0)
  have h2 := Int.emod_lt_of_pos (rng i) (by omega : 0 < hi - lo + 1)
  omega

theorem from_dungeon_level_nonneg (d : Int) (table : List (Int × Int))
    (h : ∀ vl ∈ table, 0 ≤ vl.1) : 0 ≤ from_dungeon_level d table := by
  unfold from_dungeon_level
  cases hf : table.reverse.find? (fun vl => decide (d ≥ vl.2)) with
  | none => norm_num
  | some vl =>
    have hm := List.mem_of_find?_eq_some hf
    rw [List.mem_reverse] at hm
    exact h vl hm

theorem shield_weight_zero (d : Int) (hd : d < 8) :
    from_dungeon_level d [(15, 8)] = 0 := by
  have hf : List.find? (fun vl => decide (d ≥ vl.2)) [((15:Int), (8:Int))]
      = none := by
    rw [List.find?_cons_of_neg]
    · rfl
    · simp
      omega
  unfold from_dungeon_level
  rw [show ([((15:Int), (8:Int))]).reverse = [((15:Int), (8:Int))] from rfl, hf]

theorem random_choice_index_go_some (ws : List Int) :
    ∀ (dice rs : Int) (c : Nat), rs < dice → dice ≤ rs + ws.sum →
    ∃ i, random_choice_index_go ws dice rs c = some (c + i) ∧
      i < ws.length ∧ ∀ w, ws.get? i = some w → 0 < w := by
  induction ws with
  | nil =>
    intro dice rs c h1 h2
    simp at h2
    omega
  | cons w t ih =>
    intro dice rs c h1 h2
    rw [List.sum_cons] at h2
    by_cases hle : dice ≤ rs + w
    · refine ⟨0, ?_, by simp, ?_⟩
      · simp [random_choice_index_go, hle]
      · intro w0 hw0
        simp at hw0
        omega
    · obtain ⟨i, hgo, hlen, hpos⟩ := ih dice (rs + w) (c + 1) (by omega) (by omega)
      refine ⟨i + 1, ?_, by simp; omega, ?_⟩
      · rw [random_choice_index_go]
        simp only [if_neg hle]
        rw [hgo]
        congr 1
        omega
      · intro w0 hw0
        exact hpos w0 hw0

theorem random_choice_some (chances : List (String × Int)) (dice : Int)
    (h1 : 1 ≤ dice) (h2 : dice ≤ (chances.map (fun kv => kv.2)).sum) :
    ∃ i kv, random_choice chances dice = some kv.1 ∧
      chances.get? i = some kv ∧ 0 < kv.2 := by
  obtain ⟨i, hgo, hlen, hpos⟩ :=
    random_choice_index_go_some (chances.map (fun kv => kv.2)) dice 0 0
      (by omega) (by omega)
  rw [List.length_map] at hlen
  obtain ⟨kv, hkv⟩ : ∃ kv, chances.get? i = some kv := by
    cases hg : chances.get? i with
    | none =>
      rw [List.get?_eq_none] at hg
      omega
    | some kv => exact ⟨kv, rfl⟩
  refine ⟨i, kv, ?_, hkv, ?_⟩
  · unfold random_choice random_choice_index
    rw [hgo]
    show (chances.get? (0 + i)).map (fun kv => kv.1) = some kv.1
    rw [Nat.zero_add, hkv]
    rfl
  · apply hpos
    rw [List.get?_map, hkv]
    rfl

theorem foldlM_ok_inv {σ α : Type} (P : σ → Prop) (f : σ → α → Except String σ)
    (hstep : ∀ s a, P s → ∃ s2, f s a = Except.ok s2 ∧ P s2) :
    ∀ (l : List α) (s : σ), P s →
      ∃ s2, l.foldlM f s = Except.ok s2 ∧ P s2 := by
  intro l
  induction l with
  | nil => intro s hs; exact ⟨s, rfl, hs⟩
  | cons a t ih =>
    intro s hs
    obtain ⟨s1, h1, hp1⟩ := hstep s a hs
    obtain ⟨s2, h2, hp2⟩ := ih s1 hp1
    refine ⟨s2, ?_, hp2⟩
    rw [List.foldlM_cons, h1]
    exact h2

theorem monster_sum_pos (d : Int) :
    1 ≤ ((monster_chances d).map (fun kv => kv.2)).sum := by
  have htw : 0 ≤ from_dungeon_level d [(15, 3), (30, 5), (60, 7)] := by
    apply from_dungeon_level_nonneg
    intro vl hvl
    fin_cases hvl <;> norm_num
  simp [monster_chances]
  omega

theorem item_sum_pos (d : Int) :
    1 ≤ ((item_chances d).map (fun kv => kv.2)).sum := by
  have h1 : 0 ≤ from_dungeon_level d [(25, 4)] := by
    apply from_dungeon_level_nonneg
    intro vl hvl
    fin_cases hvl <;> norm_num
  have h2 : 0 ≤ from_dungeon_level d [(25, 6)] := by
    apply from_dungeon_level_nonneg
    intro vl hvl
    fin_cases hvl <;> norm_num
  have h3 : 0 ≤ from_dungeon_level d [(10, 2)] := by
    apply from_dungeon_level_nonneg
    intro vl hvl
    fin_cases hvl <;> norm_num
  have h4 : 0 ≤ from_dungeon_level d [(5, 4)] := by
    apply from_dungeon_level_nonneg
    intro vl hvl
    fin_cases hvl <;> norm_num
  have h5 : 0 ≤ from_dungeon_level d [(15, 8)] := by
    apply from_dungeon_level_nonneg
    intro vl hvl
    fin_cases hvl <;> norm_num
  simp [item_chances]
  omega

theorem place_monster_ok (rng : Nat → Int) (d : Int) (room : Rect)
    (st : GenState) :
    ∃ st2, place_monster rng d room st = Except.ok st2 ∧
      st2.rooms = st.rooms ∧ st2.num_rooms = st.num_rooms ∧
      st2.last_center = st.last_center ∧ st2.m = st.m ∧
      st.next_id ≤ st2.next_id ∧
      ∀ o ∈ st2.objects, o ∈ st.objects ∨ FreshSpawn st.next_id o := by
  simp only [place_monster]
  by_cases hb : isBlockedAt st.m st.objects
      (randInt rng st.i (room.x1 + 1) (room.x2 - 1))
      (randInt rng (st.i + 1) (room.y1 + 1) (room.y2 - 1))
  · rw [if_pos hb]
    exact ⟨_, rfl, rfl, rfl, rfl, rfl, le_refl _, fun o ho => Or.inl ho⟩
  · rw [if_neg hb]
    have hsum := monster_sum_pos d
    have hdice := randInt_bounds rng (st.i + 2) 1
      ((monster_chances d).map (fun kv => kv.2)).sum hsum
    obtain ⟨i, kv, hrc, hget, hposw⟩ :=
      random_choice_some (monster_chances d) _ hdice.1 hdice.2
    have hilt : i < 2 := by
      by_contra hge
      rw [List.get?_eq_none.mpr (by simp [monster_chances]; omega)] at hget
      cases hget
    interval_cases i
    · have hkv : kv = ("orc", 80) := by
        simp [monster_chances] at hget
        exact hget.symm
      subst hkv
      simp only [hrc]
      refine ⟨_, rfl, rfl, rfl, rfl, rfl, by simp, ?_⟩
      intro o ho
      rw [List.mem_append] at ho
      rcases ho with ho | ho
      · exact Or.inl ho
      · rw [List.mem_singleton] at ho
        subst ho
        exact Or.inr ⟨le_refl _, Or.inr (Or.inl rfl)⟩
    · have hkv : kv = ("troll", from_dungeon_level d [(15, 3), (30, 5), (60, 7)]) := by
        simp [monster_chances] at hget
        exact hget.symm
      subst hkv
      simp only [hrc]
      refine ⟨_, rfl, rfl, rfl, rfl, rfl, by simp, ?_⟩
      intro o ho
      rw [List.mem_append] at ho
      rcases ho with ho | ho
      · exact Or.inl ho
      · rw [List.mem_singleton] at ho
        subst ho
        exact Or.inr ⟨le_refl _, Or.inr (Or.inr rfl)⟩

theorem mem_send_to_back_list (l : List Obj) (x o : Obj)
    (h : o ∈ send_to_back_list l x) : o = x ∨ o ∈ l := by
  unfold send_to_back_list at h
  cases h with
  | head => exact Or.inl rfl
  | tail _ h2 => exact Or.inr (mem_removeById l x.id o h2)

theorem place_item_ok (rng : Nat → Int) (d : Int) (room : Rect)
    (hd : d < 8) (st : GenState) (prev : Option Obj)
    (hprev : ∀ po, prev = some po → po ∈ st.objects) :
    ∃ st2 prev2, place_item rng d room (st, prev) = Except.ok (st2, prev2) ∧
      st2.rooms = st.rooms ∧ st2.num_rooms = st.num_rooms ∧
      st2.last_center = st.last_center ∧ st2.m = st.m ∧
      st.next_id ≤ st2.next_id ∧
      (∀ o ∈ st2.objects, o ∈ st.objects ∨ FreshSpawn st.next_id o) ∧
      (∀ po, prev2 = some po → po ∈ st2.objects) := by
  simp only [place_item]
  by_cases hb : isBlockedAt st.m st.objects
      (randInt rng st.i (room.x1 + 1) (room.x2 - 1))
      (randInt rng (st.i + 1) (room.y1 + 1) (room.y2 - 1))
  · rw [if_pos hb]
    exact ⟨_, _, rfl, rfl, rfl, rfl, rfl, le_refl _,
      fun o ho => Or.inl ho, hprev⟩
  · rw [if_neg hb]
    have hsum := item_sum_pos d
    have hdice := randInt_bounds rng (st.i + 2) 1
      ((item_chances d).map (fun kv => kv.2)).sum hsum
    obtain ⟨i, kv, hrc, hget, hposw⟩ :=
      random_choice_some (item_chances d) _ hdice.1 hdice.2
    have hilt : i < 6 := by
      by_contra hge
      rw [List.get?_eq_none.mpr (by simp [item_chances]; omega)] at hget
      cases hget
    have hfresh : ∀ item : Obj, item.id = st.next_id →
        item.fighter = none →
        (∀ o ∈ send_to_back_list (st.objects ++ [item]) item,
          o ∈ st.objects ∨ FreshSpawn st.next_id o) := by
      intro item hid hf o ho
      rcases mem_send_to_back_list _ _ _ ho with ho | ho
      · subst ho
        exact Or.inr ⟨le_of_eq hid.symm, Or.inl hf⟩
      · rw [List.mem_append] at ho
        rcases ho with ho | ho
        · exact Or.inl ho
        · rw [List.mem_singleton] at ho
          subst ho
          exact Or.inr ⟨le_of_eq hid.symm, Or.inl hf⟩
    interval_cases i
    · have hkv : kv = ("heal", 35) := by
        simp [item_chances] at hget
        exact hget.symm
      subst hkv
      simp only [hrc]
      rw [if_pos trivial]
      refine ⟨_, _, rfl, rfl, rfl, rfl, rfl, by simp, ?_, ?_⟩
      · exact hfresh _ rfl rfl
      · intro po hpo
        injection hpo with h2
        subst h2
        exact List.mem_cons_self _ _
    · have hkv : kv = ("lightning", from_dungeon_level d [(25, 4)]) := by
        simp [item_chances] at hget
        exact hget.symm
      subst hkv
      simp only [hrc]
      rw [if_pos trivial]
      refine ⟨_, _, rfl, rfl, rfl, rfl, rfl, by simp, ?_, ?_⟩
      · exact hfresh _ rfl rfl
      · intro po hpo
        injection hpo with h2
        subst h2
        exact List.mem_cons_self _ _
    · have hkv : kv = ("fireball", from_dungeon_level d [(25, 6)]) := by
        simp [item_chances] at hget
        exact hget.symm
      subst hkv
      simp only [hrc]
      rw [if_pos trivial]
      refine ⟨_, _, rfl, rfl, rfl, rfl, rfl, by simp, ?_, ?_⟩
      · exact hfresh _ rfl rfl
      · intro po hpo
        injection hpo with h2
        subst h2
        exact List.mem_cons_self _ _
    · have hkv : kv = ("confuse", from_dungeon_level d [(10, 2)]) := by
        simp [item_chances] at hget
        exact hget.symm
      subst hkv
      simp only [hrc]
      rw [if_pos trivial]
      refine ⟨_, _, rfl, rfl, rfl, rfl, rfl, by simp, ?_, ?_⟩
      · exact hfresh _ rfl rfl
      · intro po hpo
        injection hpo with h2
        subst h2
        exact List.mem_cons_self _ _
    · have hkv : kv = ("sword", from_dungeon_level d [(5, 4)]) := by
        simp [item_chances] at hget
        exact hget.symm
      subst hkv
      simp only [hrc]
      rw [if_pos trivial]
      refine ⟨_, _, rfl, rfl, rfl, rfl, rfl, by simp, ?_, ?_⟩
      · exact hfresh _ rfl rfl
      · intro po hpo
        injection hpo with h2
        subst h2
        exact List.mem_cons_self _ _
    · exfalso
      have hkv : kv = ("shield", from_dungeon_level d [(15, 8)]) := by
        simp [item_chances] at hget
        exact hget.symm
      rw [hkv] at hposw
      rw [shield_weight_zero d hd] at hposw
      exact lt_irrefl 0 hposw

theorem freshSpawn_mono (m n : Nat) (o : Obj) (h : m ≤ n)
    (hf : FreshSpawn n o) : FreshSpawn m o :=
  ⟨le_trans h hf.1, hf.2⟩

theorem place_objects_ok (rng : Nat → Int) (d : Int) (room : Rect)
    (hd : d < 8) (st : GenState) :
    ∃ st2, place_objects rng d room st = Except.ok st2 ∧
      st2.rooms = st.rooms ∧ st2.num_rooms = st.num_rooms ∧
      st2.last_center = st.last_center ∧ st2.m = st.m ∧
      ∀ o ∈ st2.objects, o ∈ st.objects ∨ FreshSpawn st.next_id o := by
  obtain ⟨sA, hfoldA, hPA⟩ :=
    foldlM_ok_inv
      (fun s => s.rooms = st.rooms ∧ s.num_rooms = st.num_rooms ∧
        s.last_center = st.last_center ∧ s.m = st.m ∧
        st.next_id ≤ s.next_id ∧
        ∀ o ∈ s.objects, o ∈ st.objects ∨ FreshSpawn st.next_id o)
      (fun s _ => place_monster rng d room s)
      (by
        intro s a hs
        obtain ⟨s2, hok, h1, h2, h3, h4, h5, h6⟩ := place_monster_ok rng d room s
        refine ⟨s2, hok, ?_, ?_, ?_, ?_, ?_, ?_⟩
        · rw [h1]; exact hs.1
        · rw [h2]; exact hs.2.1
        · rw [h3]; exact hs.2.2.1
        · rw [h4]; exact hs.2.2.2.1
        · exact le_trans hs.2.2.2.2.1 h5
        · intro o ho
          rcases h6 o ho with ho2 | ho2
          · exact hs.2.2.2.2.2 o ho2
          · exact Or.inr (freshSpawn_mono _ _ _ hs.2.2.2.2.1 ho2))
      (List.range (randInt rng st.i 0
        (from_dungeon_level d [(2, 1), (3, 4), (5, 6)])).toNat)
      { st with i := st.i + 1 }
      ⟨rfl, rfl, rfl, rfl, le_refl _, fun o ho => Or.inl ho⟩
  obtain ⟨sB, hfoldB, hPB⟩ :=
    foldlM_ok_inv
      (fun p : GenState × Option Obj =>
        (p.1.rooms = st.rooms ∧ p.1.num_rooms = st.num_rooms ∧
          p.1.last_center = st.last_center ∧ p.1.m = st.m ∧
          st.next_id ≤ p.1.next_id ∧
          ∀ o ∈ p.1.objects, o ∈ st.objects ∨ FreshSpawn st.next_id o) ∧
        (∀ po, p.2 = some po → po ∈ p.1.objects))
      (fun s _ => place_item rng d room s)
      (by
        rintro ⟨s, prev⟩ a hs
        obtain ⟨s2, prev2, hok, h1, h2, h3, h4, h5, h6, h7⟩ :=
          place_item_ok rng d room hd s prev hs.2
        refine ⟨(s2, prev2), hok, ⟨?_, ?_, ?_, ?_, ?_, ?_⟩, h7⟩
        · rw [h1]; exact hs.1.1
        · rw [h2]; exact hs.1.2.1
        · rw [h3]; exact hs.1.2.2.1
        · rw [h4]; exact hs.1.2.2.2.1
        · exact le_trans hs.1.2.2.2.2.1 h5
        · intro o ho
          rcases h6 o ho with ho2 | ho2
          · exact hs.1.2.2.2.2.2 o ho2
          · exact Or.inr (freshSpawn_mono _ _ _ hs.1.2.2.2.2.1 ho2))
      (List.range (randInt rng sA.i 0
        (from_dungeon_level d [(1, 1), (2, 4)])).toNat)
      ({ sA with i := sA.i + 1 }, (none : Option Obj))
      ⟨⟨hPA.1, hPA.2.1, hPA.2.2.1, hPA.2.2.2.1, hPA.2.2.2.2.1,
        hPA.2.2.2.2.2⟩, by intro po h; cases h⟩
  simp only [place_objects]
  rw [hfoldA]
  simp only []
  rw [hfoldB]
  exact ⟨sB.1, rfl, hPB.1.1, hPB.1.2.1, hPB.1.2.2.1, hPB.1.2.2.2.1,
    hPB.1.2.2.2.2.2⟩

theorem except_bind_ok {α β : Type} (a : α) (f : α → Except String β) :
    (Except.ok a >>= f) = f a := rfl

theorem make_map_room_ok (rng : Nat → Int) (d : Int) (pid : Nat)
    (hd : d < 8) (st : GenState) (hinv : RoomInv st) :
    ∃ st2, make_map_room rng d pid st = Except.ok st2 ∧ RoomInv st2 ∧
      st.num_rooms ≤ st2.num_rooms ∧
      (st.rooms = [] → 1 ≤ st2.num_rooms) := by
  simp only [make_map_room]
  split
  · refine ⟨_, rfl, ⟨hinv.1, hinv.2⟩, le_refl _, ?_⟩
    intro h0
    rename_i hfail
    rw [h0] at hfail
    simp at hfail
  · rename_i hfail
    split
    · rename_i stB heqB
      have hB : stB.rooms = st.rooms ∧ stB.num_rooms = st.num_rooms := by
        split at heqB
        · injection heqB with h2
          rw [← h2]
          exact ⟨rfl, rfl⟩
        · split at heqB
          · injection heqB with h2
            rw [← h2]
            exact ⟨rfl, rfl⟩
          · cases heqB
      obtain ⟨stC, hC, hc1, hc2, hc3, hc4, hc5⟩ :=
        place_objects_ok rng d _ hd stB
      rw [hC]
      refine ⟨_, rfl, ⟨?_, ?_⟩, ?_, ?_⟩
      · show stC.num_rooms + 1 = (stC.rooms ++ [_]).length
        rw [List.length_append, hc1, hc2, hB.1, hB.2, hinv.1]
        rfl
      · intro h2
        simp
      · show st.num_rooms ≤ stC.num_rooms + 1
        rw [hc2, hB.2]
        omega
      · intro h0
        show 1 ≤ stC.num_rooms + 1
        omega
    · rename_i e heqB
      exfalso
      split at heqB
      · cases heqB
      · split at heqB
        · cases heqB
        · rename_i hget
          rw [List.get?_eq_none] at hget
          have hlen := hinv.1
          omega

/-- C7 (amended): below depth 8 — where the defence-only shield whose
placement branch crashes cannot be drawn — every run of the generator
terminates with a level: the bounded room loop always accepts at least
the first sampled room (a zero-room run cannot occur), so the final
stairs-placement step always has a last room center and appends the
always-visible, non-blocking stairs entity at the front of the draw
order. -/
theorem make_map_ok_below_shield_depth (rng : Nat → Int) (d : Int)
    (player : Obj) (next_id : Nat) (hd : d < 8) :
    ∃ out, make_map rng d player next_id = Except.ok out ∧
      1 ≤ out.num_rooms ∧
      ∃ s rest, out.objects = s :: rest ∧ s.id = out.stairs_id ∧
        s.name = "stairs" ∧ s.always_visible = true ∧ s.blocks = false := by
  simp only [make_map]
  rw [show List.range MAX_ROOMS = 0 :: (List.range 29).map Nat.succ from
    by rw [show MAX_ROOMS = 29 + 1 from rfl, List.range_succ_eq_map]]
  rw [List.foldlM_cons]
  obtain ⟨s1, h1, hinv1, hmono1, hfirst1⟩ :=
    make_map_room_ok rng d player.id hd
      { i := 0
        m := fun _ _ => Tile.new true
        objects := [player]
        next_id := next_id
        rooms := []
        num_rooms := 0
        last_center := none }
      ⟨rfl, fun h => absurd h (Nat.not_succ_le_zero 0)⟩
  rw [h1, except_bind_ok]
  obtain ⟨s2, hfold, hinv2, hnum2⟩ :=
    foldlM_ok_inv (fun s : GenState => RoomInv s ∧ 1 ≤ s.num_rooms)
      (fun s _ => make_map_room rng d player.id s)
      (by
        intro s a hs
        obtain ⟨s2, hok, hi2, hm2, _⟩ := make_map_room_ok rng d player.id hd s hs.1
        exact ⟨s2, hok, hi2, le_trans hs.2 hm2⟩)
      ((List.range 29).map Nat.succ) s1 ⟨hinv1, hfirst1 rfl⟩
  rw [hfold]
  obtain ⟨c, hc⟩ := Option.isSome_iff_exists.mp (hinv2.2 hnum2)
  simp only [hc]
  exact ⟨_, rfl, hnum2, _, _, rfl, rfl, rfl, rfl, rfl⟩

/-- Witness for the amended C7 at depth 3: the same oracle that crashes
at depth 8 generates a one-room level with the stairs in front. -/
theorem make_map_ok_below_shield_depth_witness :
    ∃ out, make_map rngC7 3 playerC7 1 = Except.ok out ∧
      1 ≤ out.num_rooms ∧
      ∃ s rest, out.objects = s :: rest ∧ s.id = out.stairs_id ∧
        s.name = "stairs" ∧ s.always_visible = true ∧ s.blocks = false :=
  make_map_ok_below_shield_depth rngC7 3 playerC7 1 (by norm_num)

/-! ## Claim C9: hp bounds across engine operations

Transport lemmas: the hp-bound and wiring predicates only read
`player_id`, `inventory` (through the derived stats) and `game_state`, so
they travel unchanged through messages, object mutations that preserve
equipment, and draw-order changes. -/

theorem mem_of_lookupId (l : List Obj) (i : Nat) (o : Obj)
    (h : lookupId l i = some o) : o ∈ l := by
  induction l with
  | nil => cases h
  | cons a t ih =>
    simp only [lookupId] at h
    by_cases ha : a.id = i
    · rw [if_pos ha] at h
      obtain rfl := Option.some.inj h
      exact List.mem_cons_self _ _
    · rw [if_neg ha] at h
      exact List.mem_cons_of_mem _ (ih h)

theorem lookupId_id (l : List Obj) (i : Nat) (o : Obj)
    (h : lookupId l i = some o) : o.id = i := by
  induction l with
  | nil => cases h
  | cons a t ih =>
    simp only [lookupId] at h
    by_cases ha : a.id = i
    · rw [if_pos ha] at h
      obtain rfl := Option.some.inj h
      exact ha
    · rw [if_neg ha] at h
      exact ih h

theorem filterMap_congr_mem {A B : Type} (f g : A → Option B) (l : List A)
    (h : ∀ x ∈ l, f x = g x) : l.filterMap f = l.filterMap g := by
  induction l with
  | nil => rfl
  | cons a t ih =>
    rw [List.filterMap_cons, List.filterMap_cons, h a (List.mem_cons_self _ _),
      ih (fun x hx => h x (List.mem_cons_of_mem _ hx))]

theorem get_all_equipment_eqInv (gs1 gs2 : GS) (o : Obj)
    (hpid : gs1.player_id = gs2.player_id)
    (hinv : gs1.inventory = gs2.inventory) :
    get_all_equipment gs1 o = get_all_equipment gs2 o := by
  unfold get_all_equipment
  rw [hpid, hinv]

theorem get_all_equipment_mutateObj (gs : GS) (i : Nat) (upd : Obj → Obj)
    (hequip : ∀ x, (upd x).equipment = x.equipment) (o : Obj) :
    get_all_equipment (gs.mutateObj i upd) o = get_all_equipment gs o := by
  unfold get_all_equipment
  by_cases hp : o.id = gs.player_id
  · rw [if_pos (show o.id = (gs.mutateObj i upd).player_id from hp), if_pos hp,
      mutateObj_inventory, List.filterMap_map]
    apply filterMap_congr_mem
    intro x hx
    by_cases hxi : x.id = i
    · simp only [Function.comp_apply, if_pos hxi, hequip x]
    · simp only [Function.comp_apply, if_neg hxi]
  · rw [if_neg (show ¬o.id = (gs.mutateObj i upd).player_id from hp), if_neg hp]

theorem max_hp_mutateObj (gs : GS) (i : Nat) (upd : Obj → Obj)
    (hequip : ∀ x, (upd x).equipment = x.equipment) (o : Obj) (f : Fighter) :
    Fighter.max_hp (gs.mutateObj i upd) o f = Fighter.max_hp gs o f := by
  unfold Fighter.max_hp
  rw [get_all_equipment_mutateObj gs i upd hequip o]

theorem max_hp_eqInv (gs1 gs2 : GS) (o : Obj) (f : Fighter)
    (hpid : gs1.player_id = gs2.player_id)
    (hinv : gs1.inventory = gs2.inventory) :
    Fighter.max_hp gs1 o f = Fighter.max_hp gs2 o f := by
  unfold Fighter.max_hp
  rw [get_all_equipment_eqInv gs1 gs2 o hpid hinv]

theorem fighterHpOk_mutateObj (gs : GS) (i : Nat) (upd : Obj → Obj)
    (hequip : ∀ x, (upd x).equipment = x.equipment) (o : Obj) :
    fighterHpOk (gs.mutateObj i upd) o = fighterHpOk gs o := by
  cases hf : o.fighter with
  | none => simp only [fighterHpOk, hf]
  | some f => simp only [fighterHpOk, hf, max_hp_mutateObj gs i upd hequip o f]

theorem fighterHpOk_eqInv (gs1 gs2 : GS) (o : Obj)
    (hpid : gs1.player_id = gs2.player_id)
    (hinv : gs1.inventory = gs2.inventory) :
    fighterHpOk gs1 o = fighterHpOk gs2 o := by
  cases hf : o.fighter with
  | none => simp only [fighterHpOk, hf]
  | some f => simp only [fighterHpOk, hf, max_hp_eqInv gs1 gs2 o f hpid hinv]

theorem deathFnWired_eqPid (gs1 gs2 : GS) (o : Obj)
    (hpid : gs1.player_id = gs2.player_id) :
    deathFnWired gs1 o = deathFnWired gs2 o := by
  cases hf : o.fighter with
  | none => simp only [deathFnWired, hf]
  | some f => simp only [deathFnWired, hf, hpid]

theorem send_to_back_player_id (gs : GS) (i : Nat) :
    (Object.send_to_back gs i).player_id = gs.player_id := by
  unfold Object.send_to_back
  cases lookupId gs.objects i <;> rfl

theorem send_to_back_inventory (gs : GS) (i : Nat) :
    (Object.send_to_back gs i).inventory = gs.inventory := by
  unfold Object.send_to_back
  cases lookupId gs.objects i <;> rfl

theorem send_to_back_game_state (gs : GS) (i : Nat) :
    (Object.send_to_back gs i).game_state = gs.game_state := by
  unfold Object.send_to_back
  cases lookupId gs.objects i <;> rfl

theorem mem_send_to_back (gs : GS) (i : Nat) (o : Obj)
    (h : o ∈ (Object.send_to_back gs i).objects) : o ∈ gs.objects := by
  unfold Object.send_to_back at h
  cases hl : lookupId gs.objects i with
  | none => rw [hl] at h; exact h
  | some x =>
    simp only [hl] at h
    rcases List.mem_cons.mp h with rfl | h2
    · exact mem_of_lookupId _ _ _ hl
    · exact mem_removeById _ _ _ h2

theorem fighterHpOk_none (gs : GS) (o : Obj) (h : o.fighter = none) :
    fighterHpOk gs o = true := by
  simp only [fighterHpOk, h]

theorem deathFnWired_none (gs : GS) (o : Obj) (h : o.fighter = none) :
    deathFnWired gs o = true := by
  simp only [deathFnWired, h]

theorem engineWF_message (gs : GS) (s : String) (c : Color)
    (hwf : EngineWF gs) : EngineWF (gs.message s c) := by
  constructor
  · intro o ho
    rw [deathFnWired_eqPid (gs.message s c) gs o rfl]
    exact hwf.1 o ho
  · intro o ho himp
    rw [fighterHpOk_eqInv (gs.message s c) gs o rfl rfl]
    exact hwf.2 o ho (fun h2 => himp h2)

/-- Preservation of well-formedness under an in-place mutation that keeps
identities and equipment, given the wiring and bound obligations for the
touched objects. -/
theorem engineWF_mutate_fighter (gs : GS) (i : Nat) (upd : Obj → Obj)
    (hid : ∀ x, (upd x).id = x.id)
    (hequip : ∀ x, (upd x).equipment = x.equipment)
    (hwf : EngineWF gs)
    (hw2 : ∀ o ∈ gs.objects, o.id = i → deathFnWired gs (upd o) = true)
    (hh2 : ∀ o ∈ gs.objects, o.id = i →
      (i = gs.player_id → gs.game_state = "playing") →
      fighterHpOk gs (upd o) = true) :
    EngineWF (gs.mutateObj i upd) := by
  obtain ⟨hw, hh⟩ := hwf
  constructor
  · intro o2 ho2
    rw [mutateObj_objects] at ho2
    obtain ⟨o, ho, rfl⟩ := List.mem_map.mp ho2
    rw [deathFnWired_eqPid (gs.mutateObj i upd) gs _ rfl]
    by_cases hoi : o.id = i
    · rw [if_pos hoi]
      exact hw2 o ho hoi
    · rw [if_neg hoi]
      exact hw o ho
  · intro o2 ho2 himp
    rw [mutateObj_objects] at ho2
    obtain ⟨o, ho, rfl⟩ := List.mem_map.mp ho2
    rw [fighterHpOk_mutateObj gs i upd hequip]
    by_cases hoi : o.id = i
    · rw [if_pos hoi] at himp ⊢
      apply hh2 o ho hoi
      intro hip
      exact himp (by rw [hid o, hoi, hip]; exact rfl)
    · rw [if_neg hoi] at himp ⊢
      exact hh o ho (fun hpid2 => himp hpid2)

theorem engineWF_send_to_back (gs : GS) (i : Nat) (hwf : EngineWF gs) :
    EngineWF (Object.send_to_back gs i) := by
  constructor
  · intro o ho
    rw [deathFnWired_eqPid (Object.send_to_back gs i) gs o
      (send_to_back_player_id gs i)]
    exact hwf.1 o (mem_send_to_back gs i o ho)
  · intro o ho himp
    rw [fighterHpOk_eqInv (Object.send_to_back gs i) gs o
      (send_to_back_player_id gs i) (send_to_back_inventory gs i)]
    apply hwf.2 o (mem_send_to_back gs i o ho)
    intro hid
    have h2 := himp (by rw [send_to_back_player_id]; exact hid)
    rw [send_to_back_game_state] at h2
    exact h2

theorem fighterHpOk_fighter_map (gs : GS) (o : Obj) (g : Fighter → Fighter)
    (hhp : ∀ f, (g f).hp = f.hp)
    (hbm : ∀ f, (g f).base_max_hp = f.base_max_hp) :
    fighterHpOk gs { o with fighter := o.fighter.map g } = fighterHpOk gs o := by
  cases hf : o.fighter with
  | none =>
    rw [fighterHpOk_none gs o hf]
    rfl
  | some f =>
    have e0 : fighterHpOk gs { o with fighter := Option.map g (some f) }
        = decide (0 ≤ (g f).hp ∧ (g f).hp ≤ Fighter.max_hp gs o (g f)) := rfl
    have e1 : Fighter.max_hp gs o (g f) = Fighter.max_hp gs o f := by
      unfold Fighter.max_hp
      rw [hbm f]
    have e2 : fighterHpOk gs o
        = decide (0 ≤ f.hp ∧ f.hp ≤ Fighter.max_hp gs o f) := by
      unfold fighterHpOk
      rw [hf]
    rw [e0, e1, hhp f, e2]

theorem deathFnWired_fighter_map (gs : GS) (o : Obj) (g : Fighter → Fighter)
    (hdfn : ∀ f, (g f).death_function = f.death_function) :
    deathFnWired gs { o with fighter := o.fighter.map g }
      = deathFnWired gs o := by
  cases hf : o.fighter with
  | none =>
    rw [deathFnWired_none gs o hf]
    rfl
  | some f =>
    have e0 : deathFnWired gs { o with fighter := Option.map g (some f) }
        = decide ((g f).death_function =
          (if o.id = gs.player_id then some DeathFn.playerDeath
           else some DeathFn.monsterDeath)) := rfl
    have e2 : deathFnWired gs o
        = decide (f.death_function =
          (if o.id = gs.player_id then some DeathFn.playerDeath
           else some DeathFn.monsterDeath)) := by
      unfold deathFnWired
      rw [hf]
    rw [e0, hdfn f, e2]

theorem engineWF_mutate_xp (gs : GS) (i : Nat) (k : Int) (hwf : EngineWF gs) :
    EngineWF (gs.mutateObj i (fun o =>
      { o with fighter := o.fighter.map (fun pf => { pf with xp := pf.xp + k }) })) := by
  apply engineWF_mutate_fighter gs i
    (fun o => { o with fighter := o.fighter.map (fun pf => { pf with xp := pf.xp + k }) })
    (by intro x; rfl) (by intro x; rfl) hwf
  · intro o ho hoi
    rw [deathFnWired_fighter_map gs o (fun pf => { pf with xp := pf.xp + k })
      (by intro f; rfl)]
    exact hwf.1 o ho
  · intro o ho hoi hip
    rw [fighterHpOk_fighter_map gs o (fun pf => { pf with xp := pf.xp + k })
      (by intro f; rfl) (by intro f; rfl)]
    exact hwf.2 o ho (fun h2 => hip (by rw [← hoi]; exact h2))

theorem take_damage_lethal_monster (gs : GS) (owner : Obj) (f : Fighter)
    (damage : Int) (h1 : 0 < damage) (h2 : f.hp - damage ≤ 0)
    (hdf : f.death_function = some DeathFn.monsterDeath)
    (hpid : ¬owner.id = gs.player_id) :
    Fighter.take_damage gs owner f damage
      = (monster_death
            (gs.mutateObj owner.id (fun o =>
              { o with fighter := some { f with hp := f.hp - damage } }))
            { owner with fighter := some { f with hp := f.hp - damage } }).mutateObj
          (monster_death
            (gs.mutateObj owner.id (fun o =>
              { o with fighter := some { f with hp := f.hp - damage } }))
            { owner with fighter := some { f with hp := f.hp - damage } }).player_id
          (fun o => { o with
            fighter := o.fighter.map (fun pf => { pf with xp := pf.xp + f.xp }) }) := by
  unfold Fighter.take_damage
  rw [if_pos h1]
  simp only [hdf]
  rw [if_pos h2]
  have hcond : owner.id ≠ (gs.mutateObj owner.id (fun o =>
      { o with fighter := some { f with hp := f.hp - damage, death_function := some DeathFn.monsterDeath } })).player_id := hpid
  rw [if_pos hcond]

/-- Death of the player: the resulting `dead` state is well-formed because
the amended invariant exempts the player once the death transition has
fired, and no other object was touched. -/
theorem engineWF_player_death_hit (gs : GS) (target : Obj) (tf : Fighter)
    (damage : Int)
    (hp : target.id = gs.player_id)
    (hdfp : tf.death_function = some DeathFn.playerDeath)
    (hwf : EngineWF gs) :
    EngineWF (player_death (gs.mutateObj target.id (fun o =>
      { o with fighter := some { tf with hp := tf.hp - damage } })) target.id) := by
  obtain ⟨hw, hh⟩ := hwf
  unfold player_death
  constructor
  · intro o2 ho2
    rw [mutateObj_objects] at ho2
    obtain ⟨o1, ho1, rfl⟩ := List.mem_map.mp ho2
    have ho1' : o1 ∈ gs.objects.map (fun o => if o.id = target.id then
        { o with fighter := some { tf with hp := tf.hp - damage } } else o) := ho1
    obtain ⟨o, ho, rfl⟩ := List.mem_map.mp ho1'
    rw [deathFnWired_eqPid _ gs _ (by exact rfl)]
    by_cases hoi : o.id = target.id
    · rw [if_pos hoi]
      rw [if_pos (show ({ o with fighter := some { tf with hp := tf.hp - damage } } : Obj).id = target.id from hoi)]
      have e1 : deathFnWired gs { { o with fighter := some { tf with hp := tf.hp - damage } } with
          char := '%', color := Color.dark_red }
          = decide (tf.death_function =
            (if o.id = gs.player_id then some DeathFn.playerDeath
             else some DeathFn.monsterDeath)) := rfl
      rw [e1, decide_eq_true_eq, hoi, if_pos hp]
      exact hdfp
    · rw [if_neg hoi, if_neg hoi]
      exact hw o ho
  · intro o2 ho2 himp
    rw [mutateObj_objects] at ho2
    obtain ⟨o1, ho1, rfl⟩ := List.mem_map.mp ho2
    have ho1' : o1 ∈ gs.objects.map (fun o => if o.id = target.id then
        { o with fighter := some { tf with hp := tf.hp - damage } } else o) := ho1
    obtain ⟨o, ho, rfl⟩ := List.mem_map.mp ho1'
    by_cases hoi : o.id = target.id
    · exfalso
      rw [if_pos hoi] at himp
      rw [if_pos (show ({ o with fighter := some { tf with hp := tf.hp - damage } } : Obj).id = target.id from hoi)] at himp
      have h2 := himp (show o.id = gs.player_id by rw [hoi]; exact hp)
      exact absurd (show ("dead" : String) = "playing" from h2) (by decide)
    · rw [if_neg hoi, if_neg hoi]
      have e1 : fighterHpOk (({ (gs.mutateObj target.id (fun o =>
          { o with fighter := some { tf with hp := tf.hp - damage } })).message
            "You died!" Color.red with game_state := "dead" }).mutateObj target.id
          (fun o => { o with char := '%', color := Color.dark_red })) o
          = fighterHpOk gs o := by
        rw [fighterHpOk_mutateObj _ target.id _ (by intro x; rfl) o]
        rw [fighterHpOk_eqInv _ (gs.mutateObj target.id (fun o =>
          { o with fighter := some { tf with hp := tf.hp - damage } })) o
          (by exact rfl) (by exact rfl)]
        rw [fighterHpOk_mutateObj gs target.id _ (by intro x; rfl) o]
      rw [e1]
      apply hh o ho
      intro hpid2
      exact absurd (hpid2.trans hp.symm) hoi

/-- Death of a monster: the corpse loses its Fighter, so the bounds need
only hold for the other objects. -/
theorem engineWF_monster_death (gs : GS) (m : Obj) (f : Fighter)
    (hmf : m.fighter = some f)
    (hwired : ∀ o ∈ gs.objects, deathFnWired gs o = true)
    (hh : ∀ o ∈ gs.objects, ¬o.id = m.id →
      (o.id = gs.player_id → gs.game_state = "playing") →
      fighterHpOk gs o = true) :
    EngineWF (monster_death gs m) := by
  unfold monster_death
  simp only [hmf]
  apply engineWF_send_to_back
  constructor
  · intro o2 ho2
    rw [mutateObj_objects] at ho2
    obtain ⟨o, ho, rfl⟩ := List.mem_map.mp ho2
    rw [deathFnWired_eqPid _ gs _ (by exact rfl)]
    by_cases hoi : o.id = m.id
    · rw [if_pos hoi]
      exact deathFnWired_none gs _ rfl
    · rw [if_neg hoi]
      exact hwired o ho
  · intro o2 ho2 himp
    rw [mutateObj_objects] at ho2
    obtain ⟨o, ho, rfl⟩ := List.mem_map.mp ho2
    rw [fighterHpOk_mutateObj _ m.id _ (by intro x; rfl) _]
    rw [fighterHpOk_eqInv _ gs _ (by exact rfl) (by exact rfl)]
    by_cases hoi : o.id = m.id
    · rw [if_pos hoi]
      exact fighterHpOk_none gs _ rfl
    · rw [if_neg hoi] at himp ⊢
      exact hh o ho hoi (fun hpid2 => himp hpid2)

/-- `take_damage` preserves well-formedness at quiescent points: a
surviving Fighter keeps valid bounds, a dying monster loses its Fighter,
and a dying player is exempted by the `dead` game state. -/
theorem engineWF_take_damage (gs : GS) (target : Obj) (tf : Fighter)
    (damage : Int)
    (htar : target ∈ gs.objects) (htf : target.fighter = some tf)
    (hplay : gs.game_state = "playing")
    (hwf : EngineWF gs) :
    EngineWF (Fighter.take_damage gs target tf damage) := by
  by_cases hpos : 0 < damage
  case neg =>
    rw [take_damage_noop gs target tf damage (not_lt.mp hpos)]
    exact hwf
  have hbound : 0 ≤ tf.hp ∧ tf.hp ≤ Fighter.max_hp gs target tf := by
    have h1 := hwf.2 target htar (fun _ => hplay)
    simp only [fighterHpOk, htf, decide_eq_true_eq] at h1
    exact h1
  have hwired : tf.death_function =
      (if target.id = gs.player_id then some DeathFn.playerDeath
       else some DeathFn.monsterDeath) := by
    have h1 := hwf.1 target htar
    simp only [deathFnWired, htf, decide_eq_true_eq] at h1
    exact h1
  by_cases hlet : tf.hp - damage ≤ 0
  · by_cases hp : target.id = gs.player_id
    · rw [take_damage_lethal_player gs target tf damage hpos hlet
        (by rw [hwired, if_pos hp]) hp]
      exact engineWF_player_death_hit gs target tf damage hp
        (by rw [hwired, if_pos hp]) hwf
    · rw [take_damage_lethal_monster gs target tf damage hpos hlet
        (by rw [hwired, if_neg hp]) hp]
      apply engineWF_mutate_xp
      apply engineWF_monster_death _ _
        { tf with hp := tf.hp - damage } rfl
      · intro o2 ho2
        rw [mutateObj_objects] at ho2
        obtain ⟨o, ho, rfl⟩ := List.mem_map.mp ho2
        rw [deathFnWired_eqPid _ gs _ (by exact rfl)]
        by_cases hoi : o.id = target.id
        · rw [if_pos hoi]
          have e1 : deathFnWired gs { o with fighter := some { tf with hp := tf.hp - damage } }
              = decide (tf.death_function =
                (if o.id = gs.player_id then some DeathFn.playerDeath
                 else some DeathFn.monsterDeath)) := rfl
          rw [e1, decide_eq_true_eq, hoi]
          exact hwired
        · rw [if_neg hoi]
          exact hwf.1 o ho
      · intro o2 ho2 hne himp
        rw [mutateObj_objects] at ho2
        obtain ⟨o, ho, rfl⟩ := List.mem_map.mp ho2
        by_cases hoi : o.id = target.id
        · exfalso
          apply hne
          rw [if_pos hoi]
          exact hoi
        · rw [if_neg hoi] at himp ⊢
          rw [fighterHpOk_mutateObj gs target.id _ (by intro x; rfl) o]
          exact hwf.2 o ho (fun h2 => himp h2)
  · rw [take_damage_surviving gs target tf damage hpos (by omega)]
    apply engineWF_mutate_fighter gs target.id
      (fun o => { o with fighter := some { tf with hp := tf.hp - damage } })
      (by intro x; rfl) (by intro x; rfl) hwf
    · intro o ho hoi
      have e1 : deathFnWired gs { o with fighter := some { tf with hp := tf.hp - damage } }
          = decide (tf.death_function =
            (if o.id = gs.player_id then some DeathFn.playerDeath
             else some DeathFn.monsterDeath)) := rfl
      rw [e1, decide_eq_true_eq, hoi]
      exact hwired
    · intro o ho hoi hip
      have e1 : fighterHpOk gs { o with fighter := some { tf with hp := tf.hp - damage } }
          = decide (0 ≤ tf.hp - damage ∧ tf.hp - damage ≤ Fighter.max_hp gs o tf) := rfl
      rw [e1, decide_eq_true_eq]
      have e2 : Fighter.max_hp gs o tf = Fighter.max_hp gs target tf := by
        unfold Fighter.max_hp get_all_equipment
        rw [hoi]
      rw [e2]
      have hb2 := hbound.2
      exact ⟨by omega, by omega⟩

theorem engineWF_attack (gs : GS) (attacker target : Obj) (af tf : Fighter)
    (hplay : gs.game_state = "playing")
    (htar : target ∈ gs.objects) (htf : target.fighter = some tf)
    (hwf : EngineWF gs) :
    EngineWF (Fighter.attack gs attacker af target tf) := by
  by_cases hD : 0 < Fighter.power gs attacker af - Fighter.defence gs target tf
  · rw [attack_pos gs attacker af target tf hD]
    exact engineWF_take_damage _ target tf _ htar htf hplay
      (engineWF_message gs _ _ hwf)
  · rw [attack_nonpos gs attacker af target tf (not_lt.mp hD)]
    exact engineWF_message gs _ _ hwf

theorem engineWF_mutate_fighter_map (gs : GS) (i : Nat) (g : Fighter → Fighter)
    (hhp : ∀ f, (g f).hp = f.hp) (hbm : ∀ f, (g f).base_max_hp = f.base_max_hp)
    (hdfn : ∀ f, (g f).death_function = f.death_function)
    (hwf : EngineWF gs) :
    EngineWF (gs.mutateObj i (fun o => { o with fighter := o.fighter.map g })) := by
  apply engineWF_mutate_fighter gs i
    (fun o => { o with fighter := o.fighter.map g })
    (by intro x; rfl) (by intro x; rfl) hwf
  · intro o ho hoi
    rw [deathFnWired_fighter_map gs o g hdfn]
    exact hwf.1 o ho
  · intro o ho hoi hip
    rw [fighterHpOk_fighter_map gs o g hhp hbm]
    exact hwf.2 o ho (fun h2 => hip (by rw [← hoi]; exact h2))

theorem engineWF_mutate_hpBoost (gs : GS) (i : Nat) (hwf : EngineWF gs) :
    EngineWF (gs.mutateObj i (fun o => { o with fighter := o.fighter.map (fun g =>
      { g with base_max_hp := g.base_max_hp + 20, hp := g.hp + 20 }) })) := by
  apply engineWF_mutate_fighter gs i
    (fun o => { o with fighter := o.fighter.map (fun g =>
      { g with base_max_hp := g.base_max_hp + 20, hp := g.hp + 20 }) })
    (by intro x; rfl) (by intro x; rfl) hwf
  · intro o ho hoi
    rw [deathFnWired_fighter_map gs o _ (by intro g; rfl)]
    exact hwf.1 o ho
  · intro o ho hoi hip
    have himp2 : o.id = gs.player_id → gs.game_state = "playing" :=
      fun h2 => hip (by rw [← hoi]; exact h2)
    cases hfo : o.fighter with
    | none => exact fighterHpOk_none _ _ rfl
    | some pf =>
      have hb : 0 ≤ pf.hp ∧ pf.hp ≤ Fighter.max_hp gs o pf := by
        have h1 := hwf.2 o ho himp2
        simp only [fighterHpOk, hfo, decide_eq_true_eq] at h1
        exact h1
      have e1 : fighterHpOk gs { o with fighter := Option.map (fun g =>
          { g with base_max_hp := g.base_max_hp + 20, hp := g.hp + 20 }) (some pf) }
          = decide (0 ≤ pf.hp + 20 ∧ pf.hp + 20 ≤ Fighter.max_hp gs o
            { pf with base_max_hp := pf.base_max_hp + 20, hp := pf.hp + 20 }) := rfl
      have e2 : Fighter.max_hp gs o
          { pf with base_max_hp := pf.base_max_hp + 20, hp := pf.hp + 20 }
          = Fighter.max_hp gs o pf + 20 := by
        unfold Fighter.max_hp
        simp only []
        ring
      rw [e1, decide_eq_true_eq, e2]
      exact ⟨by linarith [hb.1], by linarith [hb.2]⟩

theorem engineWF_heal (gs : GS) (p : Obj) (f : Fighter) (amount : Int)
    (hmem : p ∈ gs.objects) (hpid : p.id = gs.player_id)
    (hpf : p.fighter = some f)
    (hplay : gs.game_state = "playing")
    (hamt : 0 ≤ amount)
    (hwf : EngineWF gs) :
    EngineWF (Fighter.heal gs p f amount) := by
  have hbound : 0 ≤ f.hp ∧ f.hp ≤ Fighter.max_hp gs p f := by
    have h1 := hwf.2 p hmem (fun _ => hplay)
    simp only [fighterHpOk, hpf, decide_eq_true_eq] at h1
    exact h1
  have hwired : f.death_function =
      (if p.id = gs.player_id then some DeathFn.playerDeath
       else some DeathFn.monsterDeath) := by
    have h1 := hwf.1 p hmem
    simp only [deathFnWired, hpf, decide_eq_true_eq] at h1
    exact h1
  unfold Fighter.heal
  apply engineWF_mutate_fighter gs p.id
    (fun o => { o with fighter := some { f with hp := (if f.hp + amount > Fighter.max_hp gs p f then Fighter.max_hp gs p f else f.hp + amount) } })
    (by intro x; rfl) (by intro x; rfl) hwf
  · intro o ho hoi
    have e1 : deathFnWired gs { o with fighter := some { f with hp := (if f.hp + amount > Fighter.max_hp gs p f then Fighter.max_hp gs p f else f.hp + amount) } }
        = decide (f.death_function =
          (if o.id = gs.player_id then some DeathFn.playerDeath
           else some DeathFn.monsterDeath)) := rfl
    rw [e1, decide_eq_true_eq, hoi]
    exact hwired
  · intro o ho hoi hip
    have e1 : fighterHpOk gs { o with fighter := some { f with hp := (if f.hp + amount > Fighter.max_hp gs p f then Fighter.max_hp gs p f else f.hp + amount) } }
        = decide (0 ≤ (if f.hp + amount > Fighter.max_hp gs p f then Fighter.max_hp gs p f else f.hp + amount) ∧
          (if f.hp + amount > Fighter.max_hp gs p f then Fighter.max_hp gs p f else f.hp + amount) ≤ Fighter.max_hp gs o f) := rfl
    rw [e1, decide_eq_true_eq]
    have e2 : Fighter.max_hp gs o f = Fighter.max_hp gs p f := by
      unfold Fighter.max_hp get_all_equipment
      rw [hoi]
    rw [e2]
    have hb1 := hbound.1
    have hb2 := hbound.2
    constructor
    · split <;> linarith
    · split <;> linarith

theorem engineWF_cast_heal (gs : GS) (hplay : gs.game_state = "playing")
    (hwf : EngineWF gs) : EngineWF (cast_heal gs).1 := by
  unfold cast_heal
  cases hl : lookupId gs.objects gs.player_id with
  | none => exact hwf
  | some p =>
    simp only []
    cases hpf : p.fighter with
    | none => exact hwf
    | some f =>
      simp only []
      by_cases hfull : f.hp = Fighter.max_hp gs p f
      · rw [if_pos hfull]
        exact engineWF_message gs _ _ hwf
      · rw [if_neg hfull]
        exact engineWF_heal _ p f HEAL_AMOUNT
          (mem_of_lookupId _ _ _ hl) (lookupId_id _ _ _ hl) hpf hplay
          (by norm_num [HEAL_AMOUNT]) (engineWF_message gs _ _ hwf)

theorem engineWF_check_up_level (gs : GS) (choice : Fin 3) (hwf : EngineWF gs) :
    EngineWF (check_up_level gs choice) := by
  unfold check_up_level
  cases hl : lookupId gs.objects gs.player_id with
  | none => exact hwf
  | some p =>
    simp only []
    cases hpf : p.fighter with
    | none => exact hwf
    | some f =>
      simp only []
      have hmem := mem_of_lookupId _ _ _ hl
      have hpid := lookupId_id _ _ _ hl
      have hwired : f.death_function =
          (if p.id = gs.player_id then some DeathFn.playerDeath
           else some DeathFn.monsterDeath) := by
        have h1 := hwf.1 p hmem
        simp only [deathFnWired, hpf, decide_eq_true_eq] at h1
        exact h1
      by_cases hxp : LEVEL_UP_BASE + p.level * LEVEL_UP_FACTOR ≤ f.xp
      case neg => rw [if_neg hxp]; exact hwf
      rw [if_pos hxp]
      have hwf1 : EngineWF ((gs.mutateObj p.id (fun o =>
          { o with
            level := o.level + 1
            fighter := some { f with xp := f.xp - (LEVEL_UP_BASE + p.level * LEVEL_UP_FACTOR) } })).message
          ("Your battle skills grow stronger! You reached level "
            ++ toString (p.level + 1) ++ "!") Color.yellow) := by
        apply engineWF_message
        apply engineWF_mutate_fighter gs p.id
          (fun o => { o with
            level := o.level + 1
            fighter := some { f with xp := f.xp - (LEVEL_UP_BASE + p.level * LEVEL_UP_FACTOR) } })
          (by intro x; rfl) (by intro x; rfl) hwf
        · intro o ho hoi
          have e1 : deathFnWired gs { o with
              level := o.level + 1
              fighter := some { f with xp := f.xp - (LEVEL_UP_BASE + p.level * LEVEL_UP_FACTOR) } }
              = decide (f.death_function =
                (if o.id = gs.player_id then some DeathFn.playerDeath
                 else some DeathFn.monsterDeath)) := rfl
          rw [e1, decide_eq_true_eq, hoi]
          exact hwired
        · intro o ho hoi hip
          have hb : 0 ≤ f.hp ∧ f.hp ≤ Fighter.max_hp gs p f := by
            have h1 := hwf.2 p hmem (fun _ => hip hpid)
            simp only [fighterHpOk, hpf, decide_eq_true_eq] at h1
            exact h1
          have e1 : fighterHpOk gs { o with
              level := o.level + 1
              fighter := some { f with xp := f.xp - (LEVEL_UP_BASE + p.level * LEVEL_UP_FACTOR) } }
              = decide (0 ≤ f.hp ∧ f.hp ≤ Fighter.max_hp gs o f) := rfl
          rw [e1, decide_eq_true_eq]
          have e2 : Fighter.max_hp gs o f = Fighter.max_hp gs p f := by
            unfold Fighter.max_hp get_all_equipment
            rw [hoi]
          rw [e2]
          exact hb
      by_cases hc0 : choice.val = 0
      · rw [if_pos hc0]
        exact engineWF_mutate_hpBoost _ p.id hwf1
      · rw [if_neg hc0]
        by_cases hc1 : choice.val = 1
        · rw [if_pos hc1]
          exact engineWF_mutate_fighter_map _ p.id _
            (by intro g; rfl) (by intro g; rfl) (by intro g; rfl) hwf1
        · rw [if_neg hc1]
          exact engineWF_mutate_fighter_map _ p.id _
            (by intro g; rfl) (by intro g; rfl) (by intro g; rfl) hwf1

theorem foldlM_inv_of_ok {σ α : Type} (P : σ → Prop) (f : σ → α → Except String σ)
    (hstep : ∀ s a s2, f s a = Except.ok s2 → P s → P s2) :
    ∀ (l : List α) (s s2 : σ), l.foldlM f s = Except.ok s2 → P s → P s2 := by
  intro l
  induction l with
  | nil =>
    intro s s2 h hp
    rw [List.foldlM_nil] at h
    exact (Except.ok.inj (show Except.ok s = Except.ok s2 from h)) ▸ hp
  | cons a t ih =>
    intro s s2 h hp
    rw [List.foldlM_cons] at h
    cases hfa : f s a with
    | error e =>
      rw [hfa] at h
      cases h
    | ok s1 =>
      rw [hfa, except_bind_ok] at h
      exact ih s1 s2 h (hstep s a s1 hfa hp)

/-- Inversion form of the monster-placement facts: the loop body always
succeeds and its unique result only appends fresh spawns. -/
theorem place_monster_inv (rng : Nat → Int) (d : Int) (room : Rect)
    (st st2 : GenState)
    (h : place_monster rng d room st = Except.ok st2) :
    st.next_id ≤ st2.next_id ∧
      ∀ o ∈ st2.objects, o ∈ st.objects ∨ FreshSpawn st.next_id o := by
  obtain ⟨st2', hok, h1, h2, h3, h4, h5, h6⟩ := place_monster_ok rng d room st
  rw [hok] at h
  obtain rfl := Except.ok.inj h
  exact ⟨h5, h6⟩

/-- Inversion form of the item-placement facts, available at every depth:
whenever the loop body succeeds, the state only gains fresh spawns (or a
duplicate reference to the previous item, which is already a member), and
the `item` local tracks a member of the collection. -/
theorem place_item_inv (rng : Nat → Int) (d : Int) (room : Rect)
    (st : GenState) (prev : Option Obj) (st2 : GenState) (prev2 : Option Obj)
    (h : place_item rng d room (st, prev) = Except.ok (st2, prev2))
    (hprev : ∀ po, prev = some po → po ∈ st.objects) :
    st.next_id ≤ st2.next_id ∧
      (∀ o ∈ st2.objects, o ∈ st.objects ∨ FreshSpawn st.next_id o) ∧
      (∀ po, prev2 = some po → po ∈ st2.objects) := by
  simp only [place_item] at h
  by_cases hb : isBlockedAt st.m st.objects
      (randInt rng st.i (room.x1 + 1) (room.x2 - 1))
      (randInt rng (st.i + 1) (room.y1 + 1) (room.y2 - 1))
  · rw [if_pos hb] at h
    have h2 := Except.ok.inj h
    rw [Prod.mk.injEq] at h2
    obtain ⟨rfl, rfl⟩ := h2
    exact ⟨le_refl _, fun o ho => Or.inl ho, hprev⟩
  · rw [if_neg hb] at h
    have hsum := item_sum_pos d
    have hdice := randInt_bounds rng (st.i + 2) 1
      ((item_chances d).map (fun kv => kv.2)).sum hsum
    obtain ⟨i, kv, hrc, hget, hposw⟩ :=
      random_choice_some (item_chances d) _ hdice.1 hdice.2
    have hilt : i < 6 := by
      by_contra hge
      rw [List.get?_eq_none.mpr (by simp [item_chances]; omega)] at hget
      cases hget
    have hfresh : ∀ item : Obj, item.id = st.next_id →
        item.fighter = none →
        (∀ o ∈ send_to_back_list (st.objects ++ [item]) item,
          o ∈ st.objects ∨ FreshSpawn st.next_id o) := by
      intro item hid hf o ho
      rcases mem_send_to_back_list _ _ _ ho with ho | ho
      · subst ho
        exact Or.inr ⟨le_of_eq hid.symm, Or.inl hf⟩
      · rw [List.mem_append] at ho
        rcases ho with ho | ho
        · exact Or.inl ho
        · rw [List.mem_singleton] at ho
          subst ho
          exact Or.inr ⟨le_of_eq hid.symm, Or.inl hf⟩
    interval_cases i
    · have hkv : kv = ("heal", 35) := by
        simp [item_chances] at hget
        exact hget.symm
      subst hkv
      simp only [hrc] at h
      rw [if_pos trivial] at h
      have h2 := Except.ok.inj h
      rw [Prod.mk.injEq] at h2
      obtain ⟨rfl, rfl⟩ := h2
      refine ⟨by simp, hfresh _ rfl rfl, ?_⟩
      intro po hpo
      injection hpo with h3
      subst h3
      exact List.mem_cons_self _ _
    · have hkv : kv = ("lightning", from_dungeon_level d [(25, 4)]) := by
        simp [item_chances] at hget
        exact hget.symm
      subst hkv
      simp only [hrc] at h
      rw [if_pos trivial] at h
      have h2 := Except.ok.inj h
      rw [Prod.mk.injEq] at h2
      obtain ⟨rfl, rfl⟩ := h2
      refine ⟨by simp, hfresh _ rfl rfl, ?_⟩
      intro po hpo
      injection hpo with h3
      subst h3
      exact List.mem_cons_self _ _
    · have hkv : kv = ("fireball", from_dungeon_level d [(25, 6)]) := by
        simp [item_chances] at hget
        exact hget.symm
      subst hkv
      simp only [hrc] at h
      rw [if_pos trivial] at h
      have h2 := Except.ok.inj h
      rw [Prod.mk.injEq] at h2
      obtain ⟨rfl, rfl⟩ := h2
      refine ⟨by simp, hfresh _ rfl rfl, ?_⟩
      intro po hpo
      injection hpo with h3
      subst h3
      exact List.mem_cons_self _ _
    · have hkv : kv = ("confuse", from_dungeon_level d [(10, 2)]) := by
        simp [item_chances] at hget
        exact hget.symm
      subst hkv
      simp only [hrc] at h
      rw [if_pos trivial] at h
      have h2 := Except.ok.inj h
      rw [Prod.mk.injEq] at h2
      obtain ⟨rfl, rfl⟩ := h2
      refine ⟨by simp, hfresh _ rfl rfl, ?_⟩
      intro po hpo
      injection hpo with h3
      subst h3
      exact List.mem_cons_self _ _
    · have hkv : kv = ("sword", from_dungeon_level d [(5, 4)]) := by
        simp [item_chances] at hget
        exact hget.symm
      subst hkv
      simp only [hrc] at h
      rw [if_pos trivial] at h
      have h2 := Except.ok.inj h
      rw [Prod.mk.injEq] at h2
      obtain ⟨rfl, rfl⟩ := h2
      refine ⟨by simp, hfresh _ rfl rfl, ?_⟩
      intro po hpo
      injection hpo with h3
      subst h3
      exact List.mem_cons_self _ _
    · have hkv : kv = ("shield", from_dungeon_level d [(15, 8)]) := by
        simp [item_chances] at hget
        exact hget.symm
      subst hkv
      simp only [hrc] at h
      rw [if_pos trivial] at h
      cases hprev2 : prev with
      | none =>
        simp only [hprev2] at h
        cases h
      | some po =>
        simp only [hprev2] at h
        have h2 := Except.ok.inj h
        rw [Prod.mk.injEq] at h2
        obtain ⟨rfl, rfl⟩ := h2
        have hpomem : po ∈ st.objects := hprev po hprev2
        refine ⟨le_refl _, ?_, ?_⟩
        · intro o ho
          rcases mem_send_to_back_list _ _ _ ho with ho | ho
          · subst ho
            exact Or.inl hpomem
          · rw [List.mem_append] at ho
            rcases ho with ho | ho
            · exact Or.inl ho
            · rw [List.mem_singleton] at ho
              subst ho
              exact Or.inl hpomem
        · intro po2 hpo2
          injection hpo2 with h3
          subst h3
          exact List.mem_cons_self _ _

theorem place_objects_inv (rng : Nat → Int) (d : Int) (room : Rect)
    (st st2 : GenState)
    (h : place_objects rng d room st = Except.ok st2) :
    st.next_id ≤ st2.next_id ∧
      ∀ o ∈ st2.objects, o ∈ st.objects ∨ FreshSpawn st.next_id o := by
  simp only [place_objects] at h
  split at h
  · rename_i sA hfoldA
    split at h
    · rename_i r hfoldB
      obtain rfl := Except.ok.inj h
      have hA : st.next_id ≤ sA.next_id ∧
          ∀ o ∈ sA.objects, o ∈ st.objects ∨ FreshSpawn st.next_id o := by
        refine foldlM_inv_of_ok
          (fun s => st.next_id ≤ s.next_id ∧
            ∀ o ∈ s.objects, o ∈ st.objects ∨ FreshSpawn st.next_id o)
          (fun s _ => place_monster rng d room s) ?_ _ _ sA hfoldA
          ⟨le_refl _, fun o ho => Or.inl ho⟩
        intro s a s2 hok hs
        obtain ⟨h5, h6⟩ := place_monster_inv rng d room s s2 hok
        refine ⟨le_trans hs.1 h5, ?_⟩
        intro o ho
        rcases h6 o ho with ho2 | ho2
        · exact hs.2 o ho2
        · exact Or.inr (freshSpawn_mono _ _ _ hs.1 ho2)
      have hB : st.next_id ≤ r.1.next_id ∧
          (∀ o ∈ r.1.objects, o ∈ st.objects ∨ FreshSpawn st.next_id o) ∧
          (∀ po, r.2 = some po → po ∈ r.1.objects) := by
        refine foldlM_inv_of_ok
          (fun p : GenState × Option Obj =>
            st.next_id ≤ p.1.next_id ∧
            (∀ o ∈ p.1.objects, o ∈ st.objects ∨ FreshSpawn st.next_id o) ∧
            (∀ po, p.2 = some po → po ∈ p.1.objects))
          (fun s _ => place_item rng d room s) ?_ _ _ r hfoldB
          ⟨hA.1, hA.2, by intro po hpo; cases hpo⟩
        rintro ⟨s, prev⟩ a ⟨s2, prev2⟩ hok hs
        obtain ⟨h5, h6, h7⟩ := place_item_inv rng d room s prev s2 prev2 hok hs.2.2
        refine ⟨le_trans hs.1 h5, ?_, h7⟩
        intro o ho
        rcases h6 o ho with ho2 | ho2
        · exact hs.2.1 o ho2
        · exact Or.inr (freshSpawn_mono _ _ _ hs.1 ho2)
      exact ⟨hB.1, hB.2.1⟩
    · cases h
  · cases h

theorem make_map_room_inv (rng : Nat → Int) (d : Int) (pid : Nat)
    (st st2 : GenState)
    (h : make_map_room rng d pid st = Except.ok st2) :
    st.next_id ≤ st2.next_id ∧
    ∀ o ∈ st2.objects,
      (∃ o1 ∈ st.objects, o = o1 ∨ (o1.id = pid ∧
        ∃ a b, o = { o1 with x := a, y := b })) ∨
      FreshSpawn st.next_id o := by
  simp only [make_map_room] at h
  split at h
  · obtain rfl := Except.ok.inj h
    exact ⟨le_refl _, fun o ho => Or.inl ⟨o, ho, Or.inl rfl⟩⟩
  · split at h
    · rename_i stB heqA
      split at h
      · rename_i stC hpo
        obtain rfl := Except.ok.inj h
        obtain ⟨hmono, hobj⟩ := place_objects_inv rng d _ stB stC hpo
        split at heqA
        · obtain rfl := Except.ok.inj heqA
          refine ⟨hmono, ?_⟩
          intro o ho
          rcases hobj o ho with ho2 | ho2
          · obtain ⟨o1, ho1, rfl⟩ := List.mem_map.mp ho2
            by_cases h1 : o1.id = pid
            · rw [if_pos h1]
              exact Or.inl ⟨o1, ho1, Or.inr ⟨h1, _, _, rfl⟩⟩
            · rw [if_neg h1]
              exact Or.inl ⟨o1, ho1, Or.inl rfl⟩
          · exact Or.inr ho2
        · split at heqA
          · obtain rfl := Except.ok.inj heqA
            refine ⟨hmono, ?_⟩
            intro o ho
            rcases hobj o ho with ho2 | ho2
            · exact Or.inl ⟨o, ho2, Or.inl rfl⟩
            · exact Or.inr ho2
          · cases heqA
      · cases h
    · cases h

/-- Every object of a generated level is the passed player (possibly
recentred) or a fresh spawn: a fighterless entity, or a full-health
monster wired to `monster_death` with an identity from the fresh-id
supply. -/
theorem make_map_objects_inv (rng : Nat → Int) (d : Int) (player : Obj)
    (next_id : Nat) (out : MapOut)
    (h : make_map rng d player next_id = Except.ok out) :
    next_id ≤ out.next_id ∧
    ∀ o ∈ out.objects,
      (o = player ∨ ∃ a b, o = { player with x := a, y := b }) ∨
      FreshSpawn next_id o := by
  simp only [make_map] at h
  split at h
  · rename_i st hfold
    have hP : next_id ≤ st.next_id ∧
        ∀ o ∈ st.objects,
          (o = player ∨ ∃ a b, o = { player with x := a, y := b }) ∨
          FreshSpawn next_id o := by
      refine foldlM_inv_of_ok
        (fun s => next_id ≤ s.next_id ∧
          ∀ o ∈ s.objects,
            (o = player ∨ ∃ a b, o = { player with x := a, y := b }) ∨
            FreshSpawn next_id o)
        (fun s _ => make_map_room rng d player.id s) ?_ _ _ st hfold
        ⟨le_refl _, ?_⟩
      · intro s a s2 hok hs
        obtain ⟨hmono, hobj⟩ := make_map_room_inv rng d player.id s s2 hok
        refine ⟨le_trans hs.1 hmono, ?_⟩
        intro o ho
        rcases hobj o ho with ⟨o1, ho1, hcase⟩ | hf
        · rcases hs.2 o1 ho1 with hpl | hfr
          · rcases hcase with rfl | ⟨hid, a, b, rfl⟩
            · exact Or.inl hpl
            · rcases hpl with rfl | ⟨a0, b0, rfl⟩
              · exact Or.inl (Or.inr ⟨a, b, rfl⟩)
              · exact Or.inl (Or.inr ⟨a, b, rfl⟩)
          · rcases hcase with rfl | ⟨hid, a, b, rfl⟩
            · exact Or.inr hfr
            · exact Or.inr ⟨hfr.1, hfr.2⟩
        · exact Or.inr (freshSpawn_mono _ _ _ hs.1 hf)
      · intro o ho
        rw [List.mem_singleton] at ho
        subst ho
        exact Or.inl (Or.inl rfl)
    split at h
    · rename_i c hc
      obtain rfl := Except.ok.inj h
      refine ⟨le_trans hP.1 (Nat.le_succ_of_le (le_refl _)), ?_⟩
      intro o ho
      rcases mem_send_to_back_list _ _ _ ho with ho | ho
      · subst ho
        exact Or.inr ⟨hP.1, Or.inl rfl⟩
      · rw [List.mem_append] at ho
        rcases ho with ho | ho
        · exact hP.2 o ho
        · rw [List.mem_singleton] at ho
          subst ho
          exact Or.inr ⟨hP.1, Or.inl rfl⟩
    · cases h
  · cases h

theorem deathFnWired_fresh_monster (gs : GS) (o : Obj)
    (hnp : ¬o.id = gs.player_id)
    (hf : o.fighter = some orcFighter ∨ o.fighter = some trollFighter) :
    deathFnWired gs o = true := by
  rcases hf with hf | hf
  · simp only [deathFnWired, hf, if_neg hnp, decide_eq_true_eq]
    rfl
  · simp only [deathFnWired, hf, if_neg hnp, decide_eq_true_eq]
    rfl

theorem fighterHpOk_fresh_monster (gs : GS) (o : Obj)
    (hnp : ¬o.id = gs.player_id)
    (hf : o.fighter = some orcFighter ∨ o.fighter = some trollFighter) :
    fighterHpOk gs o = true := by
  rcases hf with hf | hf
  · simp only [fighterHpOk, hf, decide_eq_true_eq]
    unfold Fighter.max_hp get_all_equipment
    rw [if_neg hnp]
    simp [orcFighter]
  · simp only [fighterHpOk, hf, decide_eq_true_eq]
    unfold Fighter.max_hp get_all_equipment
    rw [if_neg hnp]
    simp [trollFighter]

theorem engineWF_next_level (gs gs2 : GS) (rng : Nat → Int) (next_id : Nat)
    (hplay : gs.game_state = "playing")
    (hfresh : ∀ o ∈ gs.objects, o.id < next_id)
    (h : next_level gs rng next_id = Except.ok gs2)
    (hwf : EngineWF gs) : EngineWF gs2 := by
  simp only [next_level] at h
  split at h
  · rename_i p hl
    split at h
    · rename_i f hpf
      have hpmem : p ∈ gs.objects := mem_of_lookupId _ _ _ hl
      have hpid : p.id = gs.player_id := lookupId_id _ _ _ hl
      have hb : 0 ≤ f.hp ∧ f.hp ≤ Fighter.max_hp gs p f := by
        have h1 := hwf.2 p hpmem (fun _ => hplay)
        simp only [fighterHpOk, hpf, decide_eq_true_eq] at h1
        exact h1
      have hwf4 : EngineWF (Fighter.heal
          (gs.message "You take a moment to rest, and recover your strength."
            Color.light_violet) p f
          (Int.ediv (Fighter.max_hp
            (gs.message "You take a moment to rest, and recover your strength."
              Color.light_violet) p f) 2)) := by
        apply engineWF_heal
          (gs.message "You take a moment to rest, and recover your strength."
            Color.light_violet) p f
          (Int.ediv (Fighter.max_hp
            (gs.message "You take a moment to rest, and recover your strength."
              Color.light_violet) p f) 2)
          hpmem hpid hpf hplay
        · exact Int.ediv_nonneg
            (show (0 : Int) ≤ Fighter.max_hp gs p f by linarith [hb.1, hb.2])
            (by norm_num)
        · exact engineWF_message gs _ _ hwf
      split at h
      · rename_i p1 hl1
        have hmem1 := mem_of_lookupId _ _ _ hl1
        split at h
        · rename_i out hmm
          obtain rfl := Except.ok.inj h
          obtain ⟨hidmono, hobj⟩ := make_map_objects_inv rng _ p1 next_id out hmm
          have hp1id : p1.id = gs.player_id := lookupId_id _ _ _ hl1
          have hplt : p.id < next_id := hfresh p hpmem
          constructor
          · intro o ho
            rcases hobj o ho with hpl | hfr
            · rcases hpl with rfl | ⟨a, b, rfl⟩
              · exact hwf4.1 _ hmem1
              · exact hwf4.1 p1 hmem1
            · rcases hfr.2 with hfo | hfo
              · exact deathFnWired_none _ _ hfo
              · apply deathFnWired_fresh_monster
                · intro heq
                  have h2 : o.id = gs.player_id := heq
                  rw [← hpid] at h2
                  have hge := hfr.1
                  omega
                · exact hfo
          · intro o ho himp
            rcases hobj o ho with hpl | hfr
            · rcases hpl with rfl | ⟨a, b, rfl⟩
              · exact hwf4.2 _ hmem1 (fun _ => hplay)
              · exact hwf4.2 p1 hmem1 (fun _ => hplay)
            · rcases hfr.2 with hfo | hfo
              · exact fighterHpOk_none _ _ hfo
              · apply fighterHpOk_fresh_monster
                · intro heq
                  have h2 : o.id = gs.player_id := heq
                  rw [← hpid] at h2
                  have hge := hfr.1
                  omega
                · exact hfo
        · cases h
      · cases h
    · cases h
  · cases h

theorem engineWF_step (gs gs2 : GS) (hstep : Step gs gs2) (hwf : EngineWF gs) :
    EngineWF gs2 :=
  match hstep with
  | Step.attack _ attacker target af tf hstate hatt haf htar htf =>
    engineWF_attack _ attacker target af tf hstate htar htf hwf
  | Step.useHeal _ hstate => engineWF_cast_heal _ hstate hwf
  | Step.levelUp _ choice => engineWF_check_up_level _ choice hwf
  | Step.descend _ _ rng next_id hstate hfresh h =>
    engineWF_next_level _ _ rng next_id hstate hfresh h hwf

/-- C9 counterexample: the invariant as stated fails on the code.  In a
well-formed world where the orc's attack is lethal to the player, the hp
bounds hold before the call, the call is one engine attack operation, and
at the quiescent point after the call — the death transition having fired
synchronously inside it — the player's Fighter still records `hp = -1 < 0`
with the game over (`game_state = "dead"`), so the invariant is violated
at a quiescent point, not merely transiently within the call. -/
theorem hp_invariant_fails_after_player_death :
    HpInvariant gsC9 ∧
    Step gsC9 (Fighter.attack gsC9 orcC9 orcFighter playerObjC9 pfC9) ∧
    (Fighter.attack gsC9 orcC9 orcFighter playerObjC9 pfC9).game_state = "dead" ∧
    (lookupId (Fighter.attack gsC9 orcC9 orcFighter playerObjC9 pfC9).objects 1).map
      (fun o => o.fighter.map Fighter.hp) = some (some (-1)) ∧
    ¬HpInvariant (Fighter.attack gsC9 orcC9 orcFighter playerObjC9 pfC9) := by
  refine ⟨?_, Step.attack gsC9 orcC9 playerObjC9 orcFighter pfC9 rfl
    (by decide) rfl (by decide) rfl, rfl, rfl, ?_⟩
  · unfold HpInvariant
    decide
  · unfold HpInvariant
    decide

/-- C9 (amended): across every sequence of engine operations — attacks,
potion heals, level-ups and level transitions — a well-formed world stays
well-formed: every Fighter-bearing entity satisfies `0 ≤ hp ≤ max_hp` at
every quiescent point, except the player's corpse after its death
transition has fired (the game is then in the `dead` state and the corpse
permanently keeps its negative hp); a dying monster loses its Fighter
component inside the same call, so it never violates the bounds at a
quiescent point.  Well-formedness also records the death-callback wiring
the game itself establishes. -/
theorem hp_invariant_preserved_while_alive (gs gs2 : GS)
    (hsteps : Relation.ReflTransGen Step gs gs2) (hwf : EngineWF gs) :
    EngineWF gs2 := by
  induction hsteps with
  | refl => exact hwf
  | tail hab hbc ih => exact engineWF_step _ _ hbc ih

/-- Witness: the preservation theorem applied to a concrete two-entity
world across one concrete heal operation. -/
theorem hp_invariant_preserved_while_alive_witness :
    EngineWF gsC9 ∧ EngineWF (cast_heal gsC9).1 :=
  ⟨⟨by decide, by unfold HpInvariantAlive; decide⟩,
    hp_invariant_preserved_while_alive gsC9 _
      (Relation.ReflTransGen.single (Step.useHeal gsC9 rfl))
      ⟨by decide, by unfold HpInvariantAlive; decide⟩⟩
